import Mathlib

/-!
Verification development for the Vox Populi mechanics visualizer formula core.

The TypeScript source is shallowly embedded over the rationals: JavaScript
numbers are modelled as elements of the rational numbers, Math.floor is the
integer floor, and the one transcendental operation, Math.pow with a
fractional exponent, is modelled as an explicit function parameter named
powFloor that stands for the map x to floor of x raised to the configured
exponent.  Where a theorem depends on the actual behaviour of Math.pow, a
hypothesis ties powFloor to the real power function.
-/

namespace VoxPopuli

/-! ## Modifier utilities (src/lib/types/game-context.ts and src/lib/formulas/modifiers.ts) -/

/-- applyModifier from game-context.ts: value times (100 + modifier), over 100, floored. -/
def applyModifier (value modifier : ℚ) : ℚ :=
  (⌊value * (100 + modifier) / 100⌋ : ℤ)

/-- applyPercent from game-context.ts: value times percent, over 100, floored. -/
def applyPercent (value percent : ℚ) : ℚ :=
  (⌊value * percent / 100⌋ : ℤ)

/-- applyModifierChain from modifiers.ts: fold applyModifier left to right. -/
def applyModifierChain (value : ℚ) (modifiers : List ℚ) : ℚ :=
  modifiers.foldl applyModifier value

/-- roundToVisibleDivisor from modifiers.ts: round value over divisor to the
nearest integer, then multiply back.  Math.round uses round half up. -/
def roundToVisibleDivisor (value divisor : ℚ) : ℚ :=
  ((⌊value / divisor + 1/2⌋ : ℤ) : ℚ) * divisor

/-- floorToDivisor from modifiers.ts: floor of value over divisor, times divisor. -/
def floorToDivisor (value divisor : ℚ) : ℚ :=
  ((⌊value / divisor⌋ : ℤ) : ℚ) * divisor

/-- clamp from modifiers.ts. -/
def clamp (value minv maxv : ℚ) : ℚ :=
  min maxv (max minv value)

/-! ## Game context (src/lib/types/game-context.ts) -/

structure GameSpeedInfo where
  growthPercent : ℚ
  trainPercent : ℚ
  constructPercent : ℚ
  createPercent : ℚ
  researchPercent : ℚ
  goldPercent : ℚ
  hurryPercent : ℚ
  culturePercent : ℚ
  faithPercent : ℚ
deriving DecidableEq

structure EraInfo where
  id : ℤ
  name : String
  growthPercent : ℚ
  trainPercent : ℚ
  constructPercent : ℚ
  researchPercent : ℚ
deriving DecidableEq

structure HandicapInfo where
  id : ℤ
  name : String
  aiProductionPercent : ℚ
  aiResearchPercent : ℚ
  aiGrowthPercent : ℚ
  playerResearchPercent : ℚ
  playerHappinessDefault : ℚ
deriving DecidableEq

structure GameConstants where
  BASE_CITY_GROWTH_THRESHOLD : ℚ
  CITY_GROWTH_MULTIPLIER : ℚ
  CITY_GROWTH_EXPONENT : ℚ
  UNIT_PRODUCTION_PERCENT : ℚ
  GOLD_PURCHASE_VISIBLE_DIVISOR : ℚ
  GOLD_PURCHASE_MULTIPLIER : ℚ
  BUILDING_PRODUCTION_PERCENT : ℚ
  MAX_HIT_POINTS : ℚ
  COMBAT_DAMAGE : ℚ
deriving DecidableEq

structure GameContext where
  gameSpeed : GameSpeedInfo
  startEra : EraInfo
  currentEra : EraInfo
  handicap : HandicapInfo
  constants : GameConstants
deriving DecidableEq

/-- The GAMESPEED_STANDARD entry of GAME_SPEED_DEFAULTS. -/
def GAMESPEED_STANDARD : GameSpeedInfo :=
  { growthPercent := 100, trainPercent := 100, constructPercent := 100
    createPercent := 100, researchPercent := 100, goldPercent := 100
    hurryPercent := 100, culturePercent := 100, faithPercent := 100 }

/-- The ERA_ANCIENT entry of ERA_DEFAULTS. -/
def ERA_ANCIENT : EraInfo :=
  { id := 0, name := "Ancient Era", growthPercent := 100, trainPercent := 100
    constructPercent := 100, researchPercent := 100 }

/-- The HANDICAP_PRINCE entry of HANDICAP_DEFAULTS. -/
def HANDICAP_PRINCE : HandicapInfo :=
  { id := 3, name := "Prince", aiProductionPercent := 100, aiResearchPercent := 100
    aiGrowthPercent := 100, playerResearchPercent := 100, playerHappinessDefault := 9 }

/-- GAME_CONSTANTS_VP_DEFAULTS from game-context.ts. -/
def GAME_CONSTANTS_VP_DEFAULTS : GameConstants :=
  { BASE_CITY_GROWTH_THRESHOLD := 15, CITY_GROWTH_MULTIPLIER := 12
    CITY_GROWTH_EXPONENT := 222/100, UNIT_PRODUCTION_PERCENT := 100
    GOLD_PURCHASE_VISIBLE_DIVISOR := 10, GOLD_PURCHASE_MULTIPLIER := 250
    BUILDING_PRODUCTION_PERCENT := 100, MAX_HIT_POINTS := 100, COMBAT_DAMAGE := 30 }

/-- createDefaultGameContext from game-context.ts. -/
def createDefaultGameContext : GameContext :=
  { gameSpeed := GAMESPEED_STANDARD, startEra := ERA_ANCIENT
    currentEra := ERA_ANCIENT, handicap := HANDICAP_PRINCE
    constants := GAME_CONSTANTS_VP_DEFAULTS }

/-! ## Gold purchase constants (src/lib/formulas/gold-purchase.ts) -/

structure GoldPurchaseConstants where
  GOLD_PURCHASE_GOLD_PER_PRODUCTION : ℚ
  HURRY_GOLD_PRODUCTION_EXPONENT : ℚ
  GOLD_PURCHASE_VISIBLE_DIVISOR : ℚ
deriving DecidableEq

/-- Default constants matching Vox Populi values. -/
def GOLD_PURCHASE_CONSTANTS_VP : GoldPurchaseConstants :=
  { GOLD_PURCHASE_GOLD_PER_PRODUCTION := 30
    HURRY_GOLD_PRODUCTION_EXPONENT := 68/100
    GOLD_PURCHASE_VISIBLE_DIVISOR := 10 }

/-- Community Patch constants, used for comparison in the source. -/
def GOLD_PURCHASE_CONSTANTS_CP : GoldPurchaseConstants :=
  { GOLD_PURCHASE_GOLD_PER_PRODUCTION := 30
    HURRY_GOLD_PRODUCTION_EXPONENT := 75/100
    GOLD_PURCHASE_VISIBLE_DIVISOR := 10 }

/-! ## Core formula (src/lib/formulas/gold-purchase.ts)

The parameter powFloor models the composite
Math.floor(Math.pow(x, constants.HURRY_GOLD_PRODUCTION_EXPONENT)):
it receives the base and returns the floored power.  Theorems that depend on
the power function constrain powFloor by an explicit hypothesis relating it
to the real power function at the exponent stored in the constants record.
-/

/-- getPurchaseCostFromProduction from gold-purchase.ts. -/
def getPurchaseCostFromProduction (powFloor : ℚ → ℤ) (production : ℚ)
    (ctx : GameContext) (hurryModifier : ℚ) (constants : GoldPurchaseConstants) : ℚ :=
  if production ≤ 0 then 0
  else
    let purchaseCostBase : ℚ := production * constants.GOLD_PURCHASE_GOLD_PER_PRODUCTION
    let purchaseCost : ℚ := (powFloor purchaseCostBase : ℚ)
    let purchaseCost : ℚ :=
      if hurryModifier ≠ 0 then
        (⌊purchaseCost * max 0 (100 + hurryModifier) / 100⌋ : ℤ)
      else purchaseCost
    let purchaseCost : ℚ := (⌊purchaseCost * ctx.gameSpeed.hurryPercent / 100⌋ : ℤ)
    max 0 purchaseCost

/-- Options record for getUnitPurchaseCost; the source defaults are collected
in defaultUnitPurchaseCostOptions. -/
structure UnitPurchaseCostOptions where
  hurryCostModifier : ℚ
  playerUnitPurchaseMod : ℚ
  hurryModifier : ℚ
  techProgress : ℚ
  enableVPAdjustments : Bool
  constants : GoldPurchaseConstants
deriving DecidableEq

/-- The destructuring defaults of getUnitPurchaseCost. -/
def defaultUnitPurchaseCostOptions : UnitPurchaseCostOptions :=
  { hurryCostModifier := 0, playerUnitPurchaseMod := 0, hurryModifier := 0
    techProgress := 0, enableVPAdjustments := true
    constants := GOLD_PURCHASE_CONSTANTS_VP }

/-- getUnitPurchaseCost from gold-purchase.ts. -/
def getUnitPurchaseCost (powFloor : ℚ → ℤ) (productionCost : ℚ)
    (ctx : GameContext) (options : UnitPurchaseCostOptions) : ℚ :=
  if options.hurryCostModifier = -1 then -1
  else
    let cost := getPurchaseCostFromProduction powFloor productionCost ctx
      options.hurryModifier options.constants
    let cost : ℚ :=
      if options.hurryCostModifier ≠ 0 then
        (⌊cost * max 0 (100 + options.hurryCostModifier) / 100⌋ : ℤ)
      else cost
    let cost : ℚ :=
      if options.playerUnitPurchaseMod ≠ 0 then
        (⌊cost * max 0 (100 + options.playerUnitPurchaseMod) / 100⌋ : ℤ)
      else cost
    let cost : ℚ :=
      if options.enableVPAdjustments then
        let cost :=
          if 0 < options.techProgress then
            let techMod : ℚ := (⌊options.techProgress / 2⌋ : ℤ)
            ((⌊cost * (100 + techMod) / 100⌋ : ℤ) : ℚ)
          else cost
        ((⌊cost * 8 / 10⌋ : ℤ) : ℚ)
      else cost
    let cost := floorToDivisor cost options.constants.GOLD_PURCHASE_VISIBLE_DIVISOR
    max options.constants.GOLD_PURCHASE_VISIBLE_DIVISOR cost

/-- Options record for getBuildingPurchaseCost. -/
structure BuildingPurchaseCostOptions where
  buildingHurryCostModifier : ℚ
  playerBuildingPurchaseMod : ℚ
  hurryModifier : ℚ
  techProgress : ℚ
  enableTechScaling : Bool
  isInvestment : Bool
  constants : GoldPurchaseConstants
deriving DecidableEq

/-- The destructuring defaults of getBuildingPurchaseCost. -/
def defaultBuildingPurchaseCostOptions : BuildingPurchaseCostOptions :=
  { buildingHurryCostModifier := -20, playerBuildingPurchaseMod := 0
    hurryModifier := 0, techProgress := 0, enableTechScaling := true
    isInvestment := true, constants := GOLD_PURCHASE_CONSTANTS_VP }

/-- getBuildingPurchaseCost from gold-purchase.ts. -/
def getBuildingPurchaseCost (powFloor : ℚ → ℤ) (productionCost : ℚ)
    (ctx : GameContext) (options : BuildingPurchaseCostOptions) : ℚ :=
  if options.buildingHurryCostModifier = -1 then -1
  else
    let cost := getPurchaseCostFromProduction powFloor productionCost ctx
      options.hurryModifier options.constants
    let cost : ℚ :=
      if options.buildingHurryCostModifier ≠ 0 then
        (⌊cost * (100 + options.buildingHurryCostModifier) / 100⌋ : ℤ)
      else cost
    let cost : ℚ :=
      if options.playerBuildingPurchaseMod ≠ 0 then
        (⌊cost * (100 + options.playerBuildingPurchaseMod) / 100⌋ : ℤ)
      else cost
    let cost : ℚ :=
      if options.enableTechScaling then
        if 0 < options.techProgress then
          let techMod : ℚ := (⌊options.techProgress / 3⌋ : ℤ)
          ((⌊cost * (100 + techMod) / 100⌋ : ℤ) : ℚ)
        else cost
      else cost
    let cost : ℚ := if options.isInvestment then ((⌊cost * 6 / 10⌋ : ℤ) : ℚ) else cost
    let cost := floorToDivisor cost options.constants.GOLD_PURCHASE_VISIBLE_DIVISOR
    max options.constants.GOLD_PURCHASE_VISIBLE_DIVISOR cost

/-- getProjectPurchaseCost from gold-purchase.ts. -/
def getProjectPurchaseCost (powFloor : ℚ → ℤ) (productionCost : ℚ)
    (ctx : GameContext) (hurryModifier : ℚ) (constants : GoldPurchaseConstants) : ℚ :=
  let cost := getPurchaseCostFromProduction powFloor productionCost ctx hurryModifier constants
  let cost := floorToDivisor cost constants.GOLD_PURCHASE_VISIBLE_DIVISOR
  max constants.GOLD_PURCHASE_VISIBLE_DIVISOR cost

/-- getGoldToProductionRatio from gold-purchase.ts. -/
def getGoldToProductionRatio (powFloor : ℚ → ℤ) (productionCost : ℚ)
    (ctx : GameContext) (constants : GoldPurchaseConstants) : ℚ :=
  if productionCost ≤ 0 then 0
  else getPurchaseCostFromProduction powFloor productionCost ctx 0 constants / productionCost

/-! ## Hurry modifier aggregator (src/lib/utils/hurry-modifiers.ts)

Only the aggregation function is embedded; the regular-expression extraction
of sources from free text feeds it but is not needed by any claim.  A
JavaScript Set of strings is modelled as a Finset of strings, and a
JavaScript Map as an association list in insertion order (Map iteration
order is insertion order).
-/

inductive HurryScope where
  | localScope
  | empireScope
deriving DecidableEq

inductive HurryScopeFilter where
  | localScope
  | empireScope
  | all
deriving DecidableEq

structure HurryModifierSource where
  type : String
  name : String
  modifier : ℤ
  scope : HurryScope
  description : String
deriving DecidableEq

/-- The scope test in the inner loop of calculateTotalHurryModifier:
the filter is the literal string all, or the source scope equals the filter. -/
def scopeMatches (filter : HurryScopeFilter) (s : HurryScope) : Bool :=
  match filter with
  | .all => true
  | .localScope => s = HurryScope.localScope
  | .empireScope => s = HurryScope.empireScope

/-- calculateTotalHurryModifier from hurry-modifiers.ts. -/
def calculateTotalHurryModifier (enabledSources : Finset String)
    (allSources : List (String × List HurryModifierSource))
    (scope : HurryScopeFilter) : ℤ :=
  allSources.foldl
    (fun total entry =>
      if entry.1 ∈ enabledSources then
        entry.2.foldl
          (fun t m => if scopeMatches scope m.scope then t + m.modifier else t)
          total
      else total)
    0

/-! ## Tech progress (src/lib/utils/tech-progress.ts)

A JavaScript Map is modelled as an association list: set replaces the value
at the first matching key in place, otherwise appends at the end, which
reproduces Map insertion-order iteration.  The module-level mutable cache of
buildTechProgressData is modelled by explicit state passing.
-/

/-- Map get: the value stored at the key, if present. -/
def mapGet {κ ν : Type} [DecidableEq κ] (m : List (κ × ν)) (k : κ) : Option ν :=
  (m.find? (fun kv => kv.1 = k)).map (·.2)

/-- Map set: replace at the first matching key, else append. -/
def mapSet {κ ν : Type} [DecidableEq κ] (m : List (κ × ν)) (k : κ) (v : ν) :
    List (κ × ν) :=
  if m.any (fun kv => kv.1 = k) then
    m.map (fun kv => if kv.1 = k then (k, v) else kv)
  else m ++ [(k, v)]

/-- Technology records from the civilopedia export; the source field named
Type is renamed to typeId because Type is reserved in Lean. -/
structure Technology where
  typeId : String
  GridX : ℕ
  Name : String
deriving DecidableEq

structure TechProgressData where
  techToGridX : List (String × ℕ)
  gridXToCumulativeTechs : List (ℕ × ℕ)
  totalTechs : ℕ
  maxGridX : ℕ
  gridXToTechNames : List (ℕ × List String)
deriving DecidableEq

/-- State of the first pass over the technologies. -/
structure TechFirstPass where
  techToGridX : List (String × ℕ)
  techCountAtGridX : List (ℕ × ℕ)
  gridXToTechNames : List (ℕ × List String)
  maxGridX : ℕ

/-- The body of buildTechProgressData, without the cache. -/
def buildTechProgressDataPure (technologies : List Technology) : TechProgressData :=
  let fp : TechFirstPass := technologies.foldl
    (fun acc tech =>
      { techToGridX := mapSet acc.techToGridX tech.typeId tech.GridX
        techCountAtGridX := mapSet acc.techCountAtGridX tech.GridX
          (((mapGet acc.techCountAtGridX tech.GridX).getD 0) + 1)
        gridXToTechNames := mapSet acc.gridXToTechNames tech.GridX
          (((mapGet acc.gridXToTechNames tech.GridX).getD []) ++ [tech.Name])
        maxGridX := max acc.maxGridX tech.GridX })
    { techToGridX := [], techCountAtGridX := [], gridXToTechNames := [], maxGridX := 0 }
  let second : List (ℕ × ℕ) × ℕ := (List.range (fp.maxGridX + 1)).foldl
    (fun acc x =>
      let cumulative := acc.2 + ((mapGet fp.techCountAtGridX x).getD 0)
      (mapSet acc.1 x cumulative, cumulative))
    ([], 0)
  { techToGridX := fp.techToGridX
    gridXToCumulativeTechs := second.1
    totalTechs := technologies.length
    maxGridX := fp.maxGridX
    gridXToTechNames := fp.gridXToTechNames }

/-- buildTechProgressData from tech-progress.ts, with the module-level cache
variable cachedTechProgressData passed and returned explicitly. -/
def buildTechProgressData (cachedTechProgressData : Option TechProgressData)
    (technologies : List Technology) : TechProgressData × Option TechProgressData :=
  match cachedTechProgressData with
  | some cached => (cached, some cached)
  | none =>
    let built := buildTechProgressDataPure technologies
    (built, some built)

/-- clearTechProgressCache from tech-progress.ts: resets the cache variable. -/
def clearTechProgressCache (_cachedTechProgressData : Option TechProgressData) :
    Option TechProgressData :=
  none

/-- getEstimatedTechsAtGridX from tech-progress.ts. -/
def getEstimatedTechsAtGridX (techProgressData : TechProgressData) (gridX : ℕ) : ℕ :=
  let clampedX := max 0 (min gridX techProgressData.maxGridX)
  (mapGet techProgressData.gridXToCumulativeTechs clampedX).getD 0

/-- BUILDING_COST_BY_GRIDX from tech-progress.ts, as the insertion-order
list of entries of the Map literal. -/
def BUILDING_COST_BY_GRIDX : List (ℕ × ℚ) :=
  [(0, 65), (1, 65), (2, 110), (3, 150), (4, 200), (5, 300), (6, 350), (7, 500),
   (8, 600), (9, 1000), (10, 1250), (11, 1800), (12, 2000), (13, 2250), (14, 2250),
   (15, 2500), (16, 2750)]

/-- estimateGridXFromBuildingCost from tech-progress.ts: linear scan for the
minimum absolute distance, strict improvement only, so ties keep the earlier
entry.  The initial distance Infinity is modelled by seeding with none. -/
def estimateGridXFromBuildingCost (productionCost : ℚ) : ℚ :=
  let result := BUILDING_COST_BY_GRIDX.foldl
    (fun (acc : ℕ × Option ℚ) entry =>
      let distance := |productionCost - entry.2|
      match acc.2 with
      | none => (entry.1, some distance)
      | some best => if distance < best then (entry.1, some distance) else acc)
    (0, none)
  (result.1 : ℚ)

/-! ## Production to GridX correlation (src/lib/utils/tech-progress.ts) -/

structure ProductionGridXDataPoint where
  productionCost : ℚ
  gridX : ℚ
  name : String
deriving DecidableEq

inductive CorrelationEntityType where
  | unit
  | building
deriving DecidableEq

structure ProductionGridXCorrelation where
  dataPoints : List ProductionGridXDataPoint
  entityType : CorrelationEntityType
deriving DecidableEq

/-- buildProductionGridXCorrelation from tech-progress.ts: a stable ascending
sort of the data points by production cost.  Array sort is stable, and a
stable sort by a total preorder is unique, so insertion sort with the
non-strict comparison reproduces it exactly. -/
def buildProductionGridXCorrelation (dataPoints : List ProductionGridXDataPoint)
    (entityType : CorrelationEntityType) : ProductionGridXCorrelation :=
  { dataPoints := List.insertionSort
      (fun a b => a.productionCost ≤ b.productionCost) dataPoints
    entityType := entityType }

/-- One step of the lower-bound scan in getGridXFromProductionCorrelation:
a point whose cost is at most the query replaces the candidate when there is
none yet or when its cost is strictly greater.  Points are paired with their
position so that the strict object identity test of the source can be
expressed as equality of positions. -/
def lowerStep (q : ℚ) (acc : Option (ℕ × ProductionGridXDataPoint))
    (ip : ℕ × ProductionGridXDataPoint) : Option (ℕ × ProductionGridXDataPoint) :=
  if ip.2.productionCost ≤ q then
    match acc with
    | none => some ip
    | some lp =>
      if lp.2.productionCost < ip.2.productionCost then some ip else some lp
  else acc

/-- One step of the upper-bound scan: a point whose cost is at least the
query replaces the candidate when there is none yet or when its cost is
strictly smaller. -/
def upperStep (q : ℚ) (acc : Option (ℕ × ProductionGridXDataPoint))
    (ip : ℕ × ProductionGridXDataPoint) : Option (ℕ × ProductionGridXDataPoint) :=
  if q ≤ ip.2.productionCost then
    match acc with
    | none => some ip
    | some up =>
      if ip.2.productionCost < up.2.productionCost then some ip else some up
  else acc

/-- The single loop of getGridXFromProductionCorrelation that computes both
candidates, expressed as one fold over the indexed points. -/
def scanBounds (q : ℚ) (dataPoints : List ProductionGridXDataPoint) :
    Option (ℕ × ProductionGridXDataPoint) × Option (ℕ × ProductionGridXDataPoint) :=
  dataPoints.enum.foldl
    (fun st ip => (lowerStep q st.1 ip, upperStep q st.2 ip))
    (none, none)

/-- getGridXFromProductionCorrelation from tech-progress.ts. -/
def getGridXFromProductionCorrelation (correlation : ProductionGridXCorrelation)
    (productionCost : ℚ) : ℚ :=
  if correlation.dataPoints.isEmpty then
    estimateGridXFromBuildingCost productionCost
  else
    match scanBounds productionCost correlation.dataPoints with
    | (some lp, some up) =>
      if lp.1 ≠ up.1 then
        lp.2.gridX +
          (productionCost - lp.2.productionCost) /
            (up.2.productionCost - lp.2.productionCost) *
          (up.2.gridX - lp.2.gridX)
      else lp.2.gridX
    | (some lp, none) => lp.2.gridX
    | (none, some up) => up.2.gridX
    | (none, none) => estimateGridXFromBuildingCost productionCost

/-! ## Basic facts about the cost pipeline -/

/-- Helper: the clamp of an integer cast is an integer cast. -/
lemma max_zero_intCast_isInt (w : ℤ) : ∃ z : ℤ, (0 ⊔ (w : ℚ)) = (z : ℚ) :=
  ⟨0 ⊔ w, by push_cast; rfl⟩

/-- The base cost is always an integer value. -/
lemma getPurchaseCostFromProduction_isInt (powFloor : ℚ → ℤ) (production : ℚ)
    (ctx : GameContext) (hurryModifier : ℚ) (constants : GoldPurchaseConstants) :
    ∃ z : ℤ, getPurchaseCostFromProduction powFloor production ctx hurryModifier constants
      = (z : ℚ) := by
  unfold getPurchaseCostFromProduction
  split
  · exact ⟨0, rfl⟩
  · split <;> exact max_zero_intCast_isInt _

/-- The base cost is nonnegative. -/
lemma getPurchaseCostFromProduction_nonneg (powFloor : ℚ → ℤ) (production : ℚ)
    (ctx : GameContext) (hurryModifier : ℚ) (constants : GoldPurchaseConstants) :
    0 ≤ getPurchaseCostFromProduction powFloor production ctx hurryModifier constants := by
  unfold getPurchaseCostFromProduction
  split
  · exact le_refl 0
  · exact le_max_left 0 _

/-! ## Claim C4: the sentinel modifier -1 always yields -1 -/

/-- Claim C4: for every combination of all other inputs (pow model, production,
game context, option fields), getUnitPurchaseCost with per-unit hurry-cost
modifier -1 returns -1, and getBuildingPurchaseCost with building hurry-cost
modifier -1 returns -1. -/
theorem sentinel_modifier_yields_sentinel (powFloor : ℚ → ℤ) (pu pb : ℚ)
    (ctx : GameContext) (uopts : UnitPurchaseCostOptions)
    (bopts : BuildingPurchaseCostOptions) :
    getUnitPurchaseCost powFloor pu ctx { uopts with hurryCostModifier := -1 } = -1 ∧
    getBuildingPurchaseCost powFloor pb ctx
      { bopts with buildingHurryCostModifier := -1 } = -1 := by
  constructor <;> simp [getUnitPurchaseCost, getBuildingPurchaseCost]

/-! ## Claim C5: non-positive production -/

/-- Shared helper for claim C5: for non-positive production the base pipeline
returns 0 and each purchase function returns the visible-divisor clamp. -/
lemma nonpositiveProductionSpec (powFloor : ℚ → ℤ) (p hm : ℚ)
    (ctx : GameContext) (C : GoldPurchaseConstants)
    (uopts : UnitPurchaseCostOptions) (bopts : BuildingPurchaseCostOptions)
    (hp : p ≤ 0) (hu : uopts.hurryCostModifier ≠ -1)
    (hb : bopts.buildingHurryCostModifier ≠ -1)
    (hdu : 0 ≤ uopts.constants.GOLD_PURCHASE_VISIBLE_DIVISOR)
    (hdb : 0 ≤ bopts.constants.GOLD_PURCHASE_VISIBLE_DIVISOR)
    (hdc : 0 ≤ C.GOLD_PURCHASE_VISIBLE_DIVISOR) :
    getPurchaseCostFromProduction powFloor p ctx hm C = 0 ∧
    getUnitPurchaseCost powFloor p ctx uopts
      = uopts.constants.GOLD_PURCHASE_VISIBLE_DIVISOR ∧
    getBuildingPurchaseCost powFloor p ctx bopts
      = bopts.constants.GOLD_PURCHASE_VISIBLE_DIVISOR ∧
    getProjectPurchaseCost powFloor p ctx hm C
      = C.GOLD_PURCHASE_VISIBLE_DIVISOR := by
  have hbase : ∀ (hm : ℚ) (C : GoldPurchaseConstants),
      getPurchaseCostFromProduction powFloor p ctx hm C = 0 := by
    intro hm C
    simp [getPurchaseCostFromProduction, hp]
  refine ⟨hbase hm C, ?_, ?_, ?_⟩
  · simp only [getUnitPurchaseCost, if_neg hu, hbase]
    split_ifs <;>
      simp [floorToDivisor, max_eq_left hdu]
  · simp only [getBuildingPurchaseCost, if_neg hb, hbase]
    split_ifs <;>
      simp [floorToDivisor, max_eq_left hdb]
  · simp only [getProjectPurchaseCost, hbase]
    simp [floorToDivisor, max_eq_left hdc]

/-- Claim C5 counterexample: at production 0 (which is non-positive) the unit
purchase function returns the visible divisor 10, not 0 as the claim states;
the power model is irrelevant because the base-cost guard fires first. -/
theorem nonpositive_production_cex :
    getUnitPurchaseCost (fun _ => 0) 0 createDefaultGameContext
      defaultUnitPurchaseCostOptions = 10 ∧ (10 : ℚ) ≠ 0 := by
  have h := nonpositiveProductionSpec (fun _ => 0) 0 0
    createDefaultGameContext GOLD_PURCHASE_CONSTANTS_VP
    defaultUnitPurchaseCostOptions defaultBuildingPurchaseCostOptions
    le_rfl (by norm_num [defaultUnitPurchaseCostOptions])
    (by norm_num [defaultBuildingPurchaseCostOptions])
    (by norm_num [defaultUnitPurchaseCostOptions, GOLD_PURCHASE_CONSTANTS_VP])
    (by norm_num [defaultBuildingPurchaseCostOptions, GOLD_PURCHASE_CONSTANTS_VP])
    (by norm_num [GOLD_PURCHASE_CONSTANTS_VP])
  refine ⟨?_, by norm_num⟩
  rw [h.2.1]
  norm_num [defaultUnitPurchaseCostOptions, GOLD_PURCHASE_CONSTANTS_VP]

/-- Claim C5 (amended): for non-positive production the base pipeline
getPurchaseCostFromProduction yields 0, while the unit, building, and project
purchase functions (with non-sentinel modifiers and nonnegative visible
divisor) yield the minimum-cost clamp, namely the visible divisor itself,
because of the final max with the divisor. -/
theorem nonpositive_production_amended (powFloor : ℚ → ℤ) (p hm : ℚ)
    (ctx : GameContext) (C : GoldPurchaseConstants)
    (uopts : UnitPurchaseCostOptions) (bopts : BuildingPurchaseCostOptions)
    (hp : p ≤ 0) (hu : uopts.hurryCostModifier ≠ -1)
    (hb : bopts.buildingHurryCostModifier ≠ -1)
    (hdu : 0 ≤ uopts.constants.GOLD_PURCHASE_VISIBLE_DIVISOR)
    (hdb : 0 ≤ bopts.constants.GOLD_PURCHASE_VISIBLE_DIVISOR)
    (hdc : 0 ≤ C.GOLD_PURCHASE_VISIBLE_DIVISOR) :
    getPurchaseCostFromProduction powFloor p ctx hm C = 0 ∧
    getUnitPurchaseCost powFloor p ctx uopts
      = uopts.constants.GOLD_PURCHASE_VISIBLE_DIVISOR ∧
    getBuildingPurchaseCost powFloor p ctx bopts
      = bopts.constants.GOLD_PURCHASE_VISIBLE_DIVISOR ∧
    getProjectPurchaseCost powFloor p ctx hm C
      = C.GOLD_PURCHASE_VISIBLE_DIVISOR :=
  nonpositiveProductionSpec powFloor p hm ctx C uopts bopts hp hu hb hdu hdb hdc

/-- Witness for the amended claim C5 at concrete inputs. -/
theorem nonpositive_production_amended_witness :
    getPurchaseCostFromProduction (fun _ => 0) (-3) createDefaultGameContext 0
      GOLD_PURCHASE_CONSTANTS_VP = 0 ∧
    getUnitPurchaseCost (fun _ => 0) (-3) createDefaultGameContext
      defaultUnitPurchaseCostOptions
      = defaultUnitPurchaseCostOptions.constants.GOLD_PURCHASE_VISIBLE_DIVISOR ∧
    getBuildingPurchaseCost (fun _ => 0) (-3) createDefaultGameContext
      defaultBuildingPurchaseCostOptions
      = defaultBuildingPurchaseCostOptions.constants.GOLD_PURCHASE_VISIBLE_DIVISOR ∧
    getProjectPurchaseCost (fun _ => 0) (-3) createDefaultGameContext 0
      GOLD_PURCHASE_CONSTANTS_VP
      = GOLD_PURCHASE_CONSTANTS_VP.GOLD_PURCHASE_VISIBLE_DIVISOR :=
  nonpositive_production_amended (fun _ => 0) (-3) 0
    createDefaultGameContext GOLD_PURCHASE_CONSTANTS_VP
    defaultUnitPurchaseCostOptions defaultBuildingPurchaseCostOptions
    (by norm_num) (by norm_num [defaultUnitPurchaseCostOptions])
    (by norm_num [defaultBuildingPurchaseCostOptions])
    (by norm_num [defaultUnitPurchaseCostOptions, GOLD_PURCHASE_CONSTANTS_VP])
    (by norm_num [defaultBuildingPurchaseCostOptions, GOLD_PURCHASE_CONSTANTS_VP])
    (by norm_num [GOLD_PURCHASE_CONSTANTS_VP])

/-! ## Characterization of the correlation bound scan

The scan of getGridXFromProductionCorrelation keeps, among points with cost
at most the query, the first one of maximal cost, and among points with cost
at least the query, the first one of minimal cost.  The two invariants below
state this over the processed prefix and are preserved by the fold steps.
-/

/-- Abbreviation for indexed data points. -/
abbrev IndexedPoint := ℕ × ProductionGridXDataPoint

/-- Invariant of the lower-bound candidate over a processed prefix P: when
none, no processed point has cost at most q; when some, the candidate is a
processed point of maximal cost at most q, and among processed points of that
same cost it has the least position. -/
def LowerInv (q : ℚ) (P : List IndexedPoint) : Option IndexedPoint → Prop
  | none => ∀ ip ∈ P, ¬ ip.2.productionCost ≤ q
  | some lp => lp ∈ P ∧ lp.2.productionCost ≤ q ∧
      ∀ ip ∈ P, ip.2.productionCost ≤ q →
        ip.2.productionCost ≤ lp.2.productionCost ∧
          (ip.2.productionCost = lp.2.productionCost → lp.1 ≤ ip.1)

/-- Invariant of the upper-bound candidate, dual to LowerInv. -/
def UpperInv (q : ℚ) (P : List IndexedPoint) : Option IndexedPoint → Prop
  | none => ∀ ip ∈ P, ¬ q ≤ ip.2.productionCost
  | some up => up ∈ P ∧ q ≤ up.2.productionCost ∧
      ∀ ip ∈ P, q ≤ ip.2.productionCost →
        up.2.productionCost ≤ ip.2.productionCost ∧
          (ip.2.productionCost = up.2.productionCost → up.1 ≤ ip.1)

/-- One lower step preserves the invariant when the new point carries a
position strictly above everything processed. -/
lemma lowerStep_preserves (q : ℚ) (P : List IndexedPoint)
    (acc : Option IndexedPoint) (k : ℕ) (x : ProductionGridXDataPoint)
    (hfresh : ∀ jp ∈ P, jp.1 < k) (hinv : LowerInv q P acc) :
    LowerInv q (P ++ [(k, x)]) (lowerStep q acc (k, x)) := by
  unfold lowerStep
  by_cases hx : x.productionCost ≤ q
  · rw [if_pos hx]
    cases acc with
    | none =>
      refine ⟨List.mem_append_right _ (List.mem_singleton.mpr rfl), hx, ?_⟩
      intro ip hip hipq
      rcases List.mem_append.mp hip with hip | hip
      · exact absurd hipq (hinv ip hip)
      · rw [List.mem_singleton.mp hip]
        exact ⟨le_refl _, fun _ => le_refl _⟩
    | some lp =>
      obtain ⟨hmem, hlpq, hmax⟩ := hinv
      show LowerInv q (P ++ [(k, x)])
        (if lp.2.productionCost < x.productionCost then some (k, x) else some lp)
      by_cases hlt : lp.2.productionCost < x.productionCost
      · rw [if_pos hlt]
        refine ⟨List.mem_append_right _ (List.mem_singleton.mpr rfl), hx, ?_⟩
        intro ip hip hipq
        rcases List.mem_append.mp hip with hip | hip
        · have h1 := (hmax ip hip hipq).1
          exact ⟨le_trans h1 hlt.le, fun he => absurd he.symm.le (not_le.mpr (lt_of_le_of_lt h1 hlt))⟩
        · rw [List.mem_singleton.mp hip]
          exact ⟨le_refl _, fun _ => le_refl _⟩
      · rw [if_neg hlt]
        refine ⟨List.mem_append_left _ hmem, hlpq, ?_⟩
        intro ip hip hipq
        rcases List.mem_append.mp hip with hip | hip
        · exact hmax ip hip hipq
        · rw [List.mem_singleton.mp hip]
          exact ⟨not_lt.mp hlt, fun _ => (hfresh lp hmem).le⟩
  · rw [if_neg hx]
    cases acc with
    | none =>
      intro ip hip
      rcases List.mem_append.mp hip with hip | hip
      · exact hinv ip hip
      · rw [List.mem_singleton.mp hip]
        exact hx
    | some lp =>
      obtain ⟨hmem, hlpq, hmax⟩ := hinv
      refine ⟨List.mem_append_left _ hmem, hlpq, ?_⟩
      intro ip hip hipq
      rcases List.mem_append.mp hip with hip | hip
      · exact hmax ip hip hipq
      · rw [List.mem_singleton.mp hip] at hipq
        exact absurd hipq hx

/-- One upper step preserves the invariant, dually. -/
lemma upperStep_preserves (q : ℚ) (P : List IndexedPoint)
    (acc : Option IndexedPoint) (k : ℕ) (x : ProductionGridXDataPoint)
    (hfresh : ∀ jp ∈ P, jp.1 < k) (hinv : UpperInv q P acc) :
    UpperInv q (P ++ [(k, x)]) (upperStep q acc (k, x)) := by
  unfold upperStep
  by_cases hx : q ≤ x.productionCost
  · rw [if_pos hx]
    cases acc with
    | none =>
      refine ⟨List.mem_append_right _ (List.mem_singleton.mpr rfl), hx, ?_⟩
      intro ip hip hipq
      rcases List.mem_append.mp hip with hip | hip
      · exact absurd hipq (hinv ip hip)
      · rw [List.mem_singleton.mp hip]
        exact ⟨le_refl _, fun _ => le_refl _⟩
    | some up =>
      obtain ⟨hmem, hupq, hmin⟩ := hinv
      show UpperInv q (P ++ [(k, x)])
        (if x.productionCost < up.2.productionCost then some (k, x) else some up)
      by_cases hlt : x.productionCost < up.2.productionCost
      · rw [if_pos hlt]
        refine ⟨List.mem_append_right _ (List.mem_singleton.mpr rfl), hx, ?_⟩
        intro ip hip hipq
        rcases List.mem_append.mp hip with hip | hip
        · have h1 := (hmin ip hip hipq).1
          exact ⟨le_trans hlt.le h1, fun he => absurd he.le (not_le.mpr (lt_of_lt_of_le hlt h1))⟩
        · rw [List.mem_singleton.mp hip]
          exact ⟨le_refl _, fun _ => le_refl _⟩
      · rw [if_neg hlt]
        refine ⟨List.mem_append_left _ hmem, hupq, ?_⟩
        intro ip hip hipq
        rcases List.mem_append.mp hip with hip | hip
        · exact hmin ip hip hipq
        · rw [List.mem_singleton.mp hip]
          exact ⟨not_lt.mp hlt, fun _ => (hfresh up hmem).le⟩
  · rw [if_neg hx]
    cases acc with
    | none =>
      intro ip hip
      rcases List.mem_append.mp hip with hip | hip
      · exact hinv ip hip
      · rw [List.mem_singleton.mp hip]
        exact hx
    | some up =>
      obtain ⟨hmem, hupq, hmin⟩ := hinv
      refine ⟨List.mem_append_left _ hmem, hupq, ?_⟩
      intro ip hip hipq
      rcases List.mem_append.mp hip with hip | hip
      · exact hmin ip hip hipq
      · rw [List.mem_singleton.mp hip] at hipq
        exact absurd hipq hx

/-- The lower fold over an indexed suffix preserves the invariant. -/
lemma foldl_lowerStep_inv (q : ℚ) :
    ∀ (l : List ProductionGridXDataPoint) (k : ℕ) (P : List IndexedPoint)
      (acc : Option IndexedPoint),
      (∀ jp ∈ P, jp.1 < k) → LowerInv q P acc →
      LowerInv q (P ++ List.enumFrom k l)
        ((List.enumFrom k l).foldl (lowerStep q) acc) := by
  intro l
  induction l with
  | nil => intro k P acc _ hinv; simpa using hinv
  | cons x xs ih =>
    intro k P acc hfresh hinv
    have hstep := lowerStep_preserves q P acc k x hfresh hinv
    have hfresh2 : ∀ jp ∈ P ++ [(k, x)], jp.1 < k + 1 := by
      intro jp hjp
      rcases List.mem_append.mp hjp with h | h
      · exact lt_trans (hfresh jp h) (Nat.lt_succ_self k)
      · rw [List.mem_singleton.mp h]
        exact Nat.lt_succ_self k
    have := ih (k + 1) (P ++ [(k, x)]) (lowerStep q acc (k, x)) hfresh2 hstep
    simpa [List.append_assoc] using this

/-- The upper fold over an indexed suffix preserves the invariant. -/
lemma foldl_upperStep_inv (q : ℚ) :
    ∀ (l : List ProductionGridXDataPoint) (k : ℕ) (P : List IndexedPoint)
      (acc : Option IndexedPoint),
      (∀ jp ∈ P, jp.1 < k) → UpperInv q P acc →
      UpperInv q (P ++ List.enumFrom k l)
        ((List.enumFrom k l).foldl (upperStep q) acc) := by
  intro l
  induction l with
  | nil => intro k P acc _ hinv; simpa using hinv
  | cons x xs ih =>
    intro k P acc hfresh hinv
    have hstep := upperStep_preserves q P acc k x hfresh hinv
    have hfresh2 : ∀ jp ∈ P ++ [(k, x)], jp.1 < k + 1 := by
      intro jp hjp
      rcases List.mem_append.mp hjp with h | h
      · exact lt_trans (hfresh jp h) (Nat.lt_succ_self k)
      · rw [List.mem_singleton.mp h]
        exact Nat.lt_succ_self k
    have := ih (k + 1) (P ++ [(k, x)]) (upperStep q acc (k, x)) hfresh2 hstep
    simpa [List.append_assoc] using this

/-- A paired fold splits into its component folds. -/
lemma pair_foldl_split {α β γ : Type} (f : α → γ → α) (g : β → γ → β) :
    ∀ (l : List γ) (a : α) (b : β),
      l.foldl (fun st ip => (f st.1 ip, g st.2 ip)) (a, b) = (l.foldl f a, l.foldl g b) := by
  intro l
  induction l with
  | nil => intro a b; rfl
  | cons x xs ih => intro a b; exact ih (f a x) (g b x)

/-- The first component of the scan satisfies the lower invariant over the
whole indexed list. -/
lemma scan_lower_spec (q : ℚ) (pts : List ProductionGridXDataPoint) :
    LowerInv q pts.enum ((scanBounds q pts).1) := by
  have hsplit := pair_foldl_split (lowerStep q) (upperStep q) pts.enum none none
  unfold scanBounds
  rw [hsplit]
  have := foldl_lowerStep_inv q pts 0 [] none (by intro jp h; cases h) (by intro ip h; cases h)
  simpa using this

/-- The second component of the scan satisfies the upper invariant over the
whole indexed list. -/
lemma scan_upper_spec (q : ℚ) (pts : List ProductionGridXDataPoint) :
    UpperInv q pts.enum ((scanBounds q pts).2) := by
  have hsplit := pair_foldl_split (lowerStep q) (upperStep q) pts.enum none none
  unfold scanBounds
  rw [hsplit]
  have := foldl_upperStep_inv q pts 0 [] none (by intro jp h; cases h) (by intro ip h; cases h)
  simpa using this

/-- Two indexed points of the same list with equal positions are equal. -/
lemma enum_point_eq_of_index_eq {pts : List ProductionGridXDataPoint}
    {a b : IndexedPoint} (ha : a ∈ pts.enum) (hb : b ∈ pts.enum)
    (hi : a.1 = b.1) : a = b := by
  rw [List.mem_enum_iff_getElem?] at ha hb
  rw [hi] at ha
  rw [hb] at ha
  exact Prod.ext hi (Option.some_injective _ ha.symm)

/-- The point of an indexed point is a member of the underlying list. -/
lemma mem_of_mem_enum {pts : List ProductionGridXDataPoint} {ip : IndexedPoint}
    (h : ip ∈ pts.enum) : ip.2 ∈ pts := by
  rw [List.mem_enum_iff_getElem?] at h
  exact List.getElem?_mem h

/-- Every member of the list appears at some position of its enumeration. -/
lemma exists_enum_of_mem {pts : List ProductionGridXDataPoint}
    {p : ProductionGridXDataPoint} (h : p ∈ pts) : ∃ i, (i, p) ∈ pts.enum := by
  obtain ⟨n, hn⟩ := List.getElem?_of_mem h
  exact ⟨n, List.mem_enum_iff_getElem?.mpr hn⟩

/-- Unpacked lower-bound characterization for a successful scan. -/
lemma scanLower_some_spec {q : ℚ} {pts : List ProductionGridXDataPoint}
    {lp : IndexedPoint} (hL : (scanBounds q pts).1 = some lp) :
    lp ∈ pts.enum ∧ lp.2.productionCost ≤ q ∧
      ∀ ip ∈ pts.enum, ip.2.productionCost ≤ q →
        ip.2.productionCost ≤ lp.2.productionCost ∧
          (ip.2.productionCost = lp.2.productionCost → lp.1 ≤ ip.1) := by
  have h := scan_lower_spec q pts
  rw [hL] at h
  exact h

/-- Unpacked lower-bound characterization for a failed scan. -/
lemma scanLower_none_spec {q : ℚ} {pts : List ProductionGridXDataPoint}
    (hL : (scanBounds q pts).1 = none) :
    ∀ ip ∈ pts.enum, ¬ ip.2.productionCost ≤ q := by
  have h := scan_lower_spec q pts
  rw [hL] at h
  exact h

/-- Unpacked upper-bound characterization for a successful scan. -/
lemma scanUpper_some_spec {q : ℚ} {pts : List ProductionGridXDataPoint}
    {up : IndexedPoint} (hU : (scanBounds q pts).2 = some up) :
    up ∈ pts.enum ∧ q ≤ up.2.productionCost ∧
      ∀ ip ∈ pts.enum, q ≤ ip.2.productionCost →
        up.2.productionCost ≤ ip.2.productionCost ∧
          (ip.2.productionCost = up.2.productionCost → up.1 ≤ ip.1) := by
  have h := scan_upper_spec q pts
  rw [hU] at h
  exact h

/-- Unpacked upper-bound characterization for a failed scan. -/
lemma scanUpper_none_spec {q : ℚ} {pts : List ProductionGridXDataPoint}
    (hU : (scanBounds q pts).2 = none) :
    ∀ ip ∈ pts.enum, ¬ q ≤ ip.2.productionCost := by
  have h := scan_upper_spec q pts
  rw [hU] at h
  exact h

/-- A qualifying member forces the lower scan to succeed. -/
lemma scanLower_isSome {q : ℚ} {pts : List ProductionGridXDataPoint}
    {p : ProductionGridXDataPoint} (hp : p ∈ pts) (hle : p.productionCost ≤ q) :
    ∃ lp, (scanBounds q pts).1 = some lp := by
  cases h : (scanBounds q pts).1 with
  | some lp => exact ⟨lp, rfl⟩
  | none =>
    obtain ⟨i, hi⟩ := exists_enum_of_mem hp
    exact absurd hle (scanLower_none_spec h (i, p) hi)

/-- A qualifying member forces the upper scan to succeed. -/
lemma scanUpper_isSome {q : ℚ} {pts : List ProductionGridXDataPoint}
    {p : ProductionGridXDataPoint} (hp : p ∈ pts) (hle : q ≤ p.productionCost) :
    ∃ up, (scanBounds q pts).2 = some up := by
  cases h : (scanBounds q pts).2 with
  | some up => exact ⟨up, rfl⟩
  | none =>
    obtain ⟨i, hi⟩ := exists_enum_of_mem hp
    exact absurd hle (scanUpper_none_spec h (i, p) hi)

/-- When both bounds exist with equal costs, they are the same indexed point. -/
lemma bounds_eq_of_cost_eq {q : ℚ} {pts : List ProductionGridXDataPoint}
    {lp up : IndexedPoint} (hL : (scanBounds q pts).1 = some lp)
    (hU : (scanBounds q pts).2 = some up)
    (hc : lp.2.productionCost = up.2.productionCost) : lp = up := by
  obtain ⟨hLmem, hLq, hLmax⟩ := scanLower_some_spec hL
  obtain ⟨hUmem, hUq, hUmin⟩ := scanUpper_some_spec hU
  have h1 : lp.1 ≤ up.1 := (hLmax up hUmem (hc ▸ hLq)).2 hc.symm
  have h2 : up.1 ≤ lp.1 := (hUmin lp hLmem (hc ▸ hUq)).2 hc
  exact enum_point_eq_of_index_eq hLmem hUmem (le_antisymm h1 h2)

/-- When both bounds exist with distinct positions, the lower cost is
strictly below the upper cost. -/
lemma bounds_lt_of_index_ne {q : ℚ} {pts : List ProductionGridXDataPoint}
    {lp up : IndexedPoint} (hL : (scanBounds q pts).1 = some lp)
    (hU : (scanBounds q pts).2 = some up) (hij : lp.1 ≠ up.1) :
    lp.2.productionCost < up.2.productionCost := by
  obtain ⟨_, hLq, _⟩ := scanLower_some_spec hL
  obtain ⟨_, hUq, _⟩ := scanUpper_some_spec hU
  rcases lt_or_eq_of_le (le_trans hLq hUq) with h | h
  · exact h
  · exact absurd (congrArg Prod.fst (bounds_eq_of_cost_eq hL hU h)) hij

/-- The lower bound cost grows with the query, and equal costs force equal
points. -/
lemma lower_cost_mono {q1 q2 : ℚ} {pts : List ProductionGridXDataPoint}
    {l1 l2 : IndexedPoint} (hq : q1 ≤ q2)
    (h1 : (scanBounds q1 pts).1 = some l1)
    (h2 : (scanBounds q2 pts).1 = some l2) :
    l1.2.productionCost ≤ l2.2.productionCost ∧
      (l1.2.productionCost = l2.2.productionCost → l1 = l2) := by
  obtain ⟨h1mem, h1q, h1max⟩ := scanLower_some_spec h1
  obtain ⟨h2mem, h2q, h2max⟩ := scanLower_some_spec h2
  have ha := h2max l1 h1mem (le_trans h1q hq)
  refine ⟨ha.1, fun he => ?_⟩
  have hb := h1max l2 h2mem (he ▸ h1q)
  exact enum_point_eq_of_index_eq h1mem h2mem (le_antisymm (hb.2 he.symm) (ha.2 he))

/-- The upper bound cost grows with the query, and equal costs force equal
points. -/
lemma upper_cost_mono {q1 q2 : ℚ} {pts : List ProductionGridXDataPoint}
    {u1 u2 : IndexedPoint} (hq : q1 ≤ q2)
    (h1 : (scanBounds q1 pts).2 = some u1)
    (h2 : (scanBounds q2 pts).2 = some u2) :
    u1.2.productionCost ≤ u2.2.productionCost ∧
      (u1.2.productionCost = u2.2.productionCost → u1 = u2) := by
  obtain ⟨h1mem, h1q, h1min⟩ := scanUpper_some_spec h1
  obtain ⟨h2mem, h2q, h2min⟩ := scanUpper_some_spec h2
  have ha := h1min u2 h2mem (le_trans hq h2q)
  refine ⟨ha.1, fun he => ?_⟩
  have hb := h2min u1 h1mem (he ▸ h2q)
  exact enum_point_eq_of_index_eq h1mem h2mem (le_antisymm (ha.2 he.symm) (hb.2 he))

/-- The upper bound of a lower query and the lower bound of a higher query
coincide whenever their costs agree. -/
lemma cross_bounds_eq {q1 q2 : ℚ} {pts : List ProductionGridXDataPoint}
    {u1 l2 : IndexedPoint}
    (h1U : (scanBounds q1 pts).2 = some u1)
    (h2L : (scanBounds q2 pts).1 = some l2)
    (hc : u1.2.productionCost = l2.2.productionCost) : u1 = l2 := by
  obtain ⟨h1mem, h1q, h1min⟩ := scanUpper_some_spec h1U
  obtain ⟨h2mem, h2q, h2max⟩ := scanLower_some_spec h2L
  have ha : l2.1 ≤ u1.1 := (h2max u1 h1mem (hc ▸ h2q)).2 hc
  have hb : u1.1 ≤ l2.1 := (h1min l2 h2mem (hc ▸ h1q)).2 hc.symm
  exact enum_point_eq_of_index_eq h1mem h2mem (le_antisymm hb ha)

/-- The hypothesis of claim C6 on a sample list: the column is non-decreasing
as the production cost increases. -/
def CostColumnMono (pts : List ProductionGridXDataPoint) : Prop :=
  ∀ a ∈ pts, ∀ b ∈ pts, a.productionCost < b.productionCost → a.gridX ≤ b.gridX

/-- Value of the correlation lookup in the bracketed interpolation branch. -/
lemma getGridX_val_interp {q : ℚ} {pts : List ProductionGridXDataPoint}
    {lp up : IndexedPoint} (et : CorrelationEntityType) (hne : pts ≠ [])
    (hL : (scanBounds q pts).1 = some lp)
    (hU : (scanBounds q pts).2 = some up) (hij : lp.1 ≠ up.1) :
    getGridXFromProductionCorrelation ⟨pts, et⟩ q
      = lp.2.gridX + (q - lp.2.productionCost) /
          (up.2.productionCost - lp.2.productionCost) * (up.2.gridX - lp.2.gridX) := by
  have hs : scanBounds q pts = (some lp, some up) := Prod.ext hL hU
  unfold getGridXFromProductionCorrelation
  rw [if_neg (by simpa [List.isEmpty_iff] using hne), hs]
  simp [hij]

/-- Value of the correlation lookup in the exact-match branch. -/
lemma getGridX_val_same {q : ℚ} {pts : List ProductionGridXDataPoint}
    {lp up : IndexedPoint} (et : CorrelationEntityType) (hne : pts ≠ [])
    (hL : (scanBounds q pts).1 = some lp)
    (hU : (scanBounds q pts).2 = some up) (hij : lp.1 = up.1) :
    getGridXFromProductionCorrelation ⟨pts, et⟩ q = lp.2.gridX := by
  have hs : scanBounds q pts = (some lp, some up) := Prod.ext hL hU
  unfold getGridXFromProductionCorrelation
  rw [if_neg (by simpa [List.isEmpty_iff] using hne), hs]
  simp [hij]

/-- Value of the correlation lookup when only the lower bound exists. -/
lemma getGridX_val_lower {q : ℚ} {pts : List ProductionGridXDataPoint}
    {lp : IndexedPoint} (et : CorrelationEntityType) (hne : pts ≠ [])
    (hL : (scanBounds q pts).1 = some lp)
    (hU : (scanBounds q pts).2 = none) :
    getGridXFromProductionCorrelation ⟨pts, et⟩ q = lp.2.gridX := by
  have hs : scanBounds q pts = (some lp, none) := Prod.ext hL hU
  unfold getGridXFromProductionCorrelation
  rw [if_neg (by simpa [List.isEmpty_iff] using hne), hs]

/-- Value of the correlation lookup when only the upper bound exists. -/
lemma getGridX_val_upper {q : ℚ} {pts : List ProductionGridXDataPoint}
    {up : IndexedPoint} (et : CorrelationEntityType) (hne : pts ≠ [])
    (hL : (scanBounds q pts).1 = none)
    (hU : (scanBounds q pts).2 = some up) :
    getGridXFromProductionCorrelation ⟨pts, et⟩ q = up.2.gridX := by
  have hs : scanBounds q pts = (none, some up) := Prod.ext hL hU
  unfold getGridXFromProductionCorrelation
  rw [if_neg (by simpa [List.isEmpty_iff] using hne), hs]

/-- The lookup value is at least the lower-bound column. -/
lemma getGridX_ge_lower {q : ℚ} {pts : List ProductionGridXDataPoint}
    {lp : IndexedPoint} (et : CorrelationEntityType) (hne : pts ≠ [])
    (H : CostColumnMono pts) (hL : (scanBounds q pts).1 = some lp) :
    lp.2.gridX ≤ getGridXFromProductionCorrelation ⟨pts, et⟩ q := by
  cases hU : (scanBounds q pts).2 with
  | none => rw [getGridX_val_lower et hne hL hU]
  | some up =>
    by_cases hij : lp.1 = up.1
    · rw [getGridX_val_same et hne hL hU hij]
    · rw [getGridX_val_interp et hne hL hU hij]
      have hlt := bounds_lt_of_index_ne hL hU hij
      obtain ⟨hLmem, hLq, _⟩ := scanLower_some_spec hL
      obtain ⟨hUmem, _, _⟩ := scanUpper_some_spec hU
      have hgg : lp.2.gridX ≤ up.2.gridX :=
        H lp.2 (mem_of_mem_enum hLmem) up.2 (mem_of_mem_enum hUmem) hlt
      have ht0 : 0 ≤ (q - lp.2.productionCost) /
          (up.2.productionCost - lp.2.productionCost) :=
        div_nonneg (sub_nonneg.mpr hLq) (sub_nonneg.mpr hlt.le)
      exact le_add_of_nonneg_right (mul_nonneg ht0 (sub_nonneg.mpr hgg))

/-- The lookup value is at most the upper-bound column. -/
lemma getGridX_le_upper {q : ℚ} {pts : List ProductionGridXDataPoint}
    {up : IndexedPoint} (et : CorrelationEntityType) (hne : pts ≠ [])
    (H : CostColumnMono pts) (hU : (scanBounds q pts).2 = some up) :
    getGridXFromProductionCorrelation ⟨pts, et⟩ q ≤ up.2.gridX := by
  cases hL : (scanBounds q pts).1 with
  | none => rw [getGridX_val_upper et hne hL hU]
  | some lp =>
    by_cases hij : lp.1 = up.1
    · rw [getGridX_val_same et hne hL hU hij,
        enum_point_eq_of_index_eq (scanLower_some_spec hL).1
          (scanUpper_some_spec hU).1 hij]
    · rw [getGridX_val_interp et hne hL hU hij]
      have hlt := bounds_lt_of_index_ne hL hU hij
      obtain ⟨hLmem, _, _⟩ := scanLower_some_spec hL
      obtain ⟨hUmem, hUq, _⟩ := scanUpper_some_spec hU
      have hgg : lp.2.gridX ≤ up.2.gridX :=
        H lp.2 (mem_of_mem_enum hLmem) up.2 (mem_of_mem_enum hUmem) hlt
      have ht1 : (q - lp.2.productionCost) /
          (up.2.productionCost - lp.2.productionCost) ≤ 1 :=
        (div_le_one (sub_pos.mpr hlt)).mpr (by linarith [hUq])
      have hmul : (q - lp.2.productionCost) /
            (up.2.productionCost - lp.2.productionCost) * (up.2.gridX - lp.2.gridX)
          ≤ up.2.gridX - lp.2.gridX :=
        mul_le_of_le_one_left (sub_nonneg.mpr hgg) ht1
      linarith

/-- Core monotonicity of the correlation lookup over a fixed non-empty point
list whose columns do not decrease with cost. -/
lemma getGridX_mono_list (et : CorrelationEntityType)
    (pts : List ProductionGridXDataPoint) (hne : pts ≠ [])
    (H : CostColumnMono pts) (q1 q2 : ℚ) (hq : q1 ≤ q2) :
    getGridXFromProductionCorrelation ⟨pts, et⟩ q1
      ≤ getGridXFromProductionCorrelation ⟨pts, et⟩ q2 := by
  obtain ⟨p0, hp0⟩ := List.exists_mem_of_ne_nil pts hne
  cases h1L : (scanBounds q1 pts).1 with
  | none =>
    have hall1 := scanLower_none_spec h1L
    have hq1p0 : q1 ≤ p0.productionCost := by
      obtain ⟨i, hi⟩ := exists_enum_of_mem hp0
      exact le_of_not_le (hall1 (i, p0) hi)
    obtain ⟨u1, h1U⟩ := scanUpper_isSome hp0 hq1p0
    rw [getGridX_val_upper et hne h1L h1U]
    cases h2L : (scanBounds q2 pts).1 with
    | none =>
      have hall2 := scanLower_none_spec h2L
      have hq2p0 : q2 ≤ p0.productionCost := by
        obtain ⟨i, hi⟩ := exists_enum_of_mem hp0
        exact le_of_not_le (hall2 (i, p0) hi)
      obtain ⟨u2, h2U⟩ := scanUpper_isSome hp0 hq2p0
      rw [getGridX_val_upper et hne h2L h2U]
      obtain ⟨h1mem, h1q, h1min⟩ := scanUpper_some_spec h1U
      obtain ⟨h2mem, h2q, h2min⟩ := scanUpper_some_spec h2U
      have hu1q2 : q2 ≤ u1.2.productionCost := le_of_not_le (hall2 u1 h1mem)
      have ha := h2min u1 h1mem hu1q2
      have hb := h1min u2 h2mem (le_trans hq h2q)
      have hc : u1.2.productionCost = u2.2.productionCost := le_antisymm hb.1 ha.1
      rw [enum_point_eq_of_index_eq h1mem h2mem
        (le_antisymm (hb.2 hc.symm) (ha.2 hc))]
    | some l2 =>
      have hf2 := getGridX_ge_lower et hne H h2L
      obtain ⟨h2mem, h2q, h2max⟩ := scanLower_some_spec h2L
      obtain ⟨h1mem, h1q, h1min⟩ := scanUpper_some_spec h1U
      have hql2 : q1 ≤ l2.2.productionCost := le_of_not_le (hall1 l2 h2mem)
      have ha := h1min l2 h2mem hql2
      rcases lt_or_eq_of_le ha.1 with hlt | hceq
      · exact le_trans
          (H u1.2 (mem_of_mem_enum h1mem) l2.2 (mem_of_mem_enum h2mem) hlt) hf2
      · rw [cross_bounds_eq h1U h2L hceq]
        exact hf2
  | some l1 =>
    obtain ⟨h1Lmem, h1Lq, h1Lmax⟩ := scanLower_some_spec h1L
    obtain ⟨l2, h2L⟩ := scanLower_isSome (mem_of_mem_enum h1Lmem) (le_trans h1Lq hq)
    obtain ⟨h2Lmem, h2Lq, h2Lmax⟩ := scanLower_some_spec h2L
    cases h1U : (scanBounds q1 pts).2 with
    | none =>
      have hall1U := scanUpper_none_spec h1U
      have h2U : (scanBounds q2 pts).2 = none := by
        cases h : (scanBounds q2 pts).2 with
        | none => rfl
        | some u2 =>
          obtain ⟨h2mem, h2q, _⟩ := scanUpper_some_spec h
          exact absurd (le_trans hq h2q) (hall1U u2 h2mem)
      rw [getGridX_val_lower et hne h1L h1U, getGridX_val_lower et hne h2L h2U]
      have ha := lower_cost_mono hq h1L h2L
      have hl2q1 : l2.2.productionCost ≤ q1 := le_of_not_le (hall1U l2 h2Lmem)
      have hb := h1Lmax l2 h2Lmem hl2q1
      rw [ha.2 (le_antisymm ha.1 hb.1)]
    | some u1 =>
      have hf1le := getGridX_le_upper et hne H h1U
      obtain ⟨h1Umem, h1Uq, h1Umin⟩ := scanUpper_some_spec h1U
      cases h2U : (scanBounds q2 pts).2 with
      | none =>
        have hall2U := scanUpper_none_spec h2U
        rw [getGridX_val_lower et hne h2L h2U]
        have hu1q2 : u1.2.productionCost ≤ q2 := le_of_not_le (hall2U u1 h1Umem)
        have ha := h2Lmax u1 h1Umem hu1q2
        rcases lt_or_eq_of_le ha.1 with hlt | hceq
        · exact le_trans hf1le
            (H u1.2 (mem_of_mem_enum h1Umem) l2.2 (mem_of_mem_enum h2Lmem) hlt)
        · rw [← cross_bounds_eq h1U h2L hceq]
          exact hf1le
      | some u2 =>
        obtain ⟨h2Umem, h2Uq, h2Umin⟩ := scanUpper_some_spec h2U
        by_cases hij2 : l2.1 = u2.1
        · rw [getGridX_val_same et hne h2L h2U hij2]
          have hl2u2 : l2 = u2 := enum_point_eq_of_index_eq h2Lmem h2Umem hij2
          have hq2l2 : q2 ≤ l2.2.productionCost := by rw [hl2u2]; exact h2Uq
          have ha := h1Umin l2 h2Lmem (le_trans hq hq2l2)
          rcases lt_or_eq_of_le ha.1 with hlt | hceq
          · exact le_trans hf1le
              (H u1.2 (mem_of_mem_enum h1Umem) l2.2 (mem_of_mem_enum h2Lmem) hlt)
          · rw [← cross_bounds_eq h1U h2L hceq]
            exact hf1le
        · by_cases hij1 : l1.1 = u1.1
          · rw [getGridX_val_same et hne h1L h1U hij1]
            have hf2 := getGridX_ge_lower et hne H h2L
            have ha := lower_cost_mono hq h1L h2L
            rcases lt_or_eq_of_le ha.1 with hlt | hceq
            · exact le_trans
                (H l1.2 (mem_of_mem_enum h1Lmem) l2.2 (mem_of_mem_enum h2Lmem) hlt)
                hf2
            · rw [ha.2 hceq]
              exact hf2
          · have hlt1 := bounds_lt_of_index_ne h1L h1U hij1
            have hlt2 := bounds_lt_of_index_ne h2L h2U hij2
            by_cases hcase : u1.2.productionCost ≤ l2.2.productionCost
            · rcases lt_or_eq_of_le hcase with hlt | hceq
              · exact le_trans hf1le (le_trans
                  (H u1.2 (mem_of_mem_enum h1Umem) l2.2 (mem_of_mem_enum h2Lmem) hlt)
                  (getGridX_ge_lower et hne H h2L))
              · refine le_trans hf1le ?_
                rw [cross_bounds_eq h1U h2L hceq]
                exact getGridX_ge_lower et hne H h2L
            · push_neg at hcase
              have hll : l1 = l2 := by
                have ha := lower_cost_mono hq h1L h2L
                rcases lt_or_eq_of_le ha.1 with hlt | hceq
                · have hl2q1 : l2.2.productionCost ≤ q1 := by
                    by_contra hcon
                    push_neg at hcon
                    exact absurd (h1Umin l2 h2Lmem hcon.le).1 (not_le.mpr hcase)
                  exact absurd (h1Lmax l2 h2Lmem hl2q1).1 (not_le.mpr hlt)
                · exact ha.2 hceq
              have huu : u1 = u2 := by
                have ha := upper_cost_mono hq h1U h2U
                rcases lt_or_eq_of_le ha.1 with hlt | hceq
                · have hq2u1 : q2 ≤ u1.2.productionCost := by
                    by_contra hcon
                    push_neg at hcon
                    exact absurd (h2Lmax u1 h1Umem hcon.le).1 (not_le.mpr hcase)
                  exact absurd (h2Umin u1 h1Umem hq2u1).1 (not_le.mpr hlt)
                · exact ha.2 hceq
              rw [getGridX_val_interp et hne h1L h1U hij1,
                getGridX_val_interp et hne h2L h2U hij2, ← hll, ← huu]
              have hdc : 0 < u1.2.productionCost - l1.2.productionCost :=
                sub_pos.mpr hlt1
              have hdg : 0 ≤ u1.2.gridX - l1.2.gridX :=
                sub_nonneg.mpr (H l1.2 (mem_of_mem_enum h1Lmem) u1.2
                  (mem_of_mem_enum h1Umem) hlt1)
              have hdiv : (q1 - l1.2.productionCost) /
                    (u1.2.productionCost - l1.2.productionCost)
                  ≤ (q2 - l1.2.productionCost) /
                    (u1.2.productionCost - l1.2.productionCost) := by
                gcongr
              exact add_le_add_left (mul_le_mul_of_nonneg_right hdiv hdg) _

/-- The sorted list underlying a built correlation. -/
lemma buildCorrelation_dataPoints (samples : List ProductionGridXDataPoint)
    (et : CorrelationEntityType) :
    (buildProductionGridXCorrelation samples et).dataPoints
      = List.insertionSort (fun a b => a.productionCost ≤ b.productionCost) samples :=
  rfl

/-! ## Claim C6: monotonicity of the interpolated column -/

/-- Claim C6: for every non-empty sample list whose columns are non-decreasing
in production cost, and every two queried costs c1 at most c2, the correlation
lookup built from those samples is monotone: the value at c1 is at most the
value at c2, across the exact-match, bracketed, and one-sided branches. -/
theorem correlation_lookup_monotone (samples : List ProductionGridXDataPoint)
    (et : CorrelationEntityType) (hne : samples ≠ [])
    (H : CostColumnMono samples) (c1 c2 : ℚ) (hc : c1 ≤ c2) :
    getGridXFromProductionCorrelation (buildProductionGridXCorrelation samples et) c1
      ≤ getGridXFromProductionCorrelation (buildProductionGridXCorrelation samples et) c2 := by
  have hperm := List.perm_insertionSort
    (fun a b => a.productionCost ≤ b.productionCost) samples
  have hne2 : List.insertionSort
      (fun a b => a.productionCost ≤ b.productionCost) samples ≠ [] := by
    intro h
    rw [h] at hperm
    exact hne hperm.symm.eq_nil
  have H2 : CostColumnMono
      (List.insertionSort (fun a b => a.productionCost ≤ b.productionCost) samples) := by
    intro a ha b hb hab
    exact H a (hperm.mem_iff.mp ha) b (hperm.mem_iff.mp hb) hab
  exact getGridX_mono_list et _ hne2 H2 c1 c2 hc

/-- Witness for claim C6 at the concrete samples of the specification. -/
theorem correlation_lookup_monotone_witness :
    getGridXFromProductionCorrelation
        (buildProductionGridXCorrelation
          [⟨300, 5, "a"⟩, ⟨600, 8, "b"⟩] CorrelationEntityType.unit) 450
      ≤ getGridXFromProductionCorrelation
          (buildProductionGridXCorrelation
            [⟨300, 5, "a"⟩, ⟨600, 8, "b"⟩] CorrelationEntityType.unit) 500 :=
  correlation_lookup_monotone [⟨300, 5, "a"⟩, ⟨600, 8, "b"⟩]
    CorrelationEntityType.unit (List.cons_ne_nil _ _)
    (by
      intro a ha b hb hab
      fin_cases ha <;> fin_cases hb <;> norm_num at hab ⊢)
    450 500 (by norm_num)

/-! ## Claim C7: the exact-match branch returns the stored column -/

/-- Distinctness of production costs is a symmetric relation. -/
lemma costNe_symm :
    Symmetric (fun (a b : ProductionGridXDataPoint) =>
      a.productionCost ≠ b.productionCost) :=
  fun _ _ h => Ne.symm h

/-- Claim C7: for every correlation built from a sample list with pairwise
distinct production costs and every query equal to the cost of a member
sample, the lookup returns exactly the stored column of that sample. -/
theorem correlation_exact_match (samples : List ProductionGridXDataPoint)
    (et : CorrelationEntityType) (s : ProductionGridXDataPoint)
    (hs : s ∈ samples)
    (hdist : List.Pairwise (fun a b => a.productionCost ≠ b.productionCost) samples) :
    getGridXFromProductionCorrelation (buildProductionGridXCorrelation samples et)
      s.productionCost = s.gridX := by
  have hperm := List.perm_insertionSort
    (fun a b => a.productionCost ≤ b.productionCost) samples
  set pts := List.insertionSort
    (fun a b => a.productionCost ≤ b.productionCost) samples with hpts
  have hsmem : s ∈ pts := hperm.mem_iff.mpr hs
  have hne : pts ≠ [] := by
    intro h
    rw [h] at hsmem
    cases hsmem
  have hdist2 : List.Pairwise
      (fun a b => a.productionCost ≠ b.productionCost) pts :=
    (hperm.pairwise_iff (fun {_ _} h => costNe_symm h)).mpr hdist
  have hinj : ∀ a ∈ pts, ∀ b ∈ pts, a.productionCost = b.productionCost → a = b := by
    intro a ha b hb hab
    by_contra hab2
    exact (List.Pairwise.forall costNe_symm hdist2 ha hb hab2) hab
  show getGridXFromProductionCorrelation ⟨pts, et⟩ s.productionCost = s.gridX
  obtain ⟨lp, hL⟩ := scanLower_isSome hsmem le_rfl
  obtain ⟨up, hU⟩ := scanUpper_isSome hsmem le_rfl
  obtain ⟨hLmem, hLq, hLmax⟩ := scanLower_some_spec hL
  obtain ⟨hUmem, hUq, hUmin⟩ := scanUpper_some_spec hU
  obtain ⟨i, hi⟩ := exists_enum_of_mem hsmem
  have hlc : lp.2.productionCost = s.productionCost :=
    le_antisymm hLq (hLmax (i, s) hi le_rfl).1
  have huc : up.2.productionCost = s.productionCost :=
    le_antisymm ((hUmin (i, s) hi le_rfl).1) hUq
  have hlu : lp = up := bounds_eq_of_cost_eq hL hU (hlc.trans huc.symm)
  have hval := getGridX_val_same et hne hL hU (congrArg Prod.fst hlu)
  rw [hval]
  exact congrArg ProductionGridXDataPoint.gridX
    (hinj lp.2 (mem_of_mem_enum hLmem) s hsmem hlc)

/-- Witness for claim C7 at the concrete samples of the specification. -/
theorem correlation_exact_match_witness :
    getGridXFromProductionCorrelation
        (buildProductionGridXCorrelation
          [⟨300, 5, "a"⟩, ⟨600, 8, "b"⟩] CorrelationEntityType.unit)
        (ProductionGridXDataPoint.mk 300 5 "a").productionCost
      = (ProductionGridXDataPoint.mk 300 5 "a").gridX :=
  correlation_exact_match [⟨300, 5, "a"⟩, ⟨600, 8, "b"⟩]
    CorrelationEntityType.unit ⟨300, 5, "a"⟩ (by simp)
    (by
      refine List.Pairwise.cons ?_ (List.pairwise_singleton _ _)
      intro b hb
      fin_cases hb
      norm_num)

/-! ## Claims C1 and C2: the stage order of the purchase pipelines

The claims state the pipelines as explicit stage compositions; the following
two definitions transcribe that claimed stage order, to be compared with the
source-transcribed functions.
-/

/-- The building purchase pipeline in the stage order stated by claim C1:
base cost with the stacking modifier folded into the base-cost call, then the
intrinsic modifier unconditionally, then the player-wide modifier if nonzero,
then the tech-progress modifier if scaling is enabled and progress is
positive, then the investment discount, then the divisor floor, then the
minimum clamp. -/
def buildingPurchaseCostStages (powFloor : ℚ → ℤ) (productionCost : ℚ)
    (ctx : GameContext) (options : BuildingPurchaseCostOptions) : ℚ :=
  let cost := getPurchaseCostFromProduction powFloor productionCost ctx
    options.hurryModifier options.constants
  let cost : ℚ := (⌊cost * (100 + options.buildingHurryCostModifier) / 100⌋ : ℤ)
  let cost : ℚ :=
    if options.playerBuildingPurchaseMod ≠ 0 then
      (⌊cost * (100 + options.playerBuildingPurchaseMod) / 100⌋ : ℤ)
    else cost
  let cost : ℚ :=
    if options.enableTechScaling ∧ 0 < options.techProgress then
      ((⌊cost * (100 + ((⌊options.techProgress / 3⌋ : ℤ) : ℚ)) / 100⌋ : ℤ) : ℚ)
    else cost
  let cost : ℚ :=
    if options.isInvestment then ((⌊cost * 6 / 10⌋ : ℤ) : ℚ) else cost
  let cost := floorToDivisor cost options.constants.GOLD_PURCHASE_VISIBLE_DIVISOR
  max options.constants.GOLD_PURCHASE_VISIBLE_DIVISOR cost

/-- The unit purchase pipeline in the stage order stated by claim C2 for the
case where the VP-adjustments toggle is on: base cost, then the per-unit
modifier with the max-0 clamp unconditionally, then the player-wide modifier
in the same form if nonzero, then half of the tech progress applied as a
modifier, then the flat eight-tenths discount, then the divisor floor, then
the minimum clamp. -/
def unitPurchaseCostStages (powFloor : ℚ → ℤ) (productionCost : ℚ)
    (ctx : GameContext) (options : UnitPurchaseCostOptions) : ℚ :=
  let cost := getPurchaseCostFromProduction powFloor productionCost ctx
    options.hurryModifier options.constants
  let cost : ℚ := (⌊cost * max 0 (100 + options.hurryCostModifier) / 100⌋ : ℤ)
  let cost : ℚ :=
    if options.playerUnitPurchaseMod ≠ 0 then
      (⌊cost * max 0 (100 + options.playerUnitPurchaseMod) / 100⌋ : ℤ)
    else cost
  let cost : ℚ := (⌊cost * (100 + ((⌊options.techProgress / 2⌋ : ℤ) : ℚ)) / 100⌋ : ℤ)
  let cost : ℚ := (⌊cost * 8 / 10⌋ : ℤ)
  let cost := floorToDivisor cost options.constants.GOLD_PURCHASE_VISIBLE_DIVISOR
  max options.constants.GOLD_PURCHASE_VISIBLE_DIVISOR cost

/-- Multiplying an integer by 100 over 100 and flooring is the identity. -/
lemma floorIntMulHundredDivHundred (w : ℤ) : (⌊(w : ℚ) * 100 / 100⌋ : ℤ) = w := by
  norm_num

/-- The max-0 clamp of 100 is 100. -/
lemma supZeroHundred : ((0 : ℚ) ⊔ 100) = 100 := by norm_num

/-- Claim C1: for every production cost above 0 and every building option set
whose intrinsic modifier is not the sentinel, getBuildingPurchaseCost equals
the staged pipeline of the specification; in particular the intrinsic
modifier is a separate stage applied after the base-cost call and is never
merged with the stacking modifier before game-speed scaling. -/
theorem building_purchase_stage_order (powFloor : ℚ → ℤ) (p : ℚ)
    (ctx : GameContext) (opts : BuildingPurchaseCostOptions)
    (hp : 0 < p) (hmod : opts.buildingHurryCostModifier ≠ -1) :
    getBuildingPurchaseCost powFloor p ctx opts
      = buildingPurchaseCostStages powFloor p ctx opts := by
  obtain ⟨z, hz⟩ := getPurchaseCostFromProduction_isInt powFloor p ctx
    opts.hurryModifier opts.constants
  rcases eq_or_ne opts.buildingHurryCostModifier 0 with h0 | h0 <;>
    rcases eq_or_ne opts.playerBuildingPurchaseMod 0 with h1 | h1 <;>
    cases hts : opts.enableTechScaling <;>
    rcases Decidable.em (0 < opts.techProgress) with h2 | h2 <;>
    cases hinv : opts.isInvestment <;>
    simp [getBuildingPurchaseCost, buildingPurchaseCostStages, hmod, hz, h0, h1,
      hts, hinv, h2, floorIntMulHundredDivHundred]

/-- Witness for claim C1 at concrete inputs. -/
theorem building_purchase_stage_order_witness :
    getBuildingPurchaseCost (fun x => ⌊x⌋) 1800 createDefaultGameContext
        defaultBuildingPurchaseCostOptions
      = buildingPurchaseCostStages (fun x => ⌊x⌋) 1800 createDefaultGameContext
          defaultBuildingPurchaseCostOptions :=
  building_purchase_stage_order (fun x => ⌊x⌋) 1800 createDefaultGameContext
    defaultBuildingPurchaseCostOptions (by norm_num)
    (by norm_num [defaultBuildingPurchaseCostOptions])

/-- Claim C2: for every production cost above 0, progress percentage between
0 and 100, per-unit modifier other than the sentinel, and the VP-adjustments
toggle on, getUnitPurchaseCost equals the staged pipeline of the
specification. -/
theorem unit_purchase_stage_order (powFloor : ℚ → ℤ) (p : ℚ)
    (ctx : GameContext) (opts : UnitPurchaseCostOptions)
    (hp : 0 < p) (hprog0 : 0 ≤ opts.techProgress)
    (hprog1 : opts.techProgress ≤ 100)
    (hmod : opts.hurryCostModifier ≠ -1)
    (hvp : opts.enableVPAdjustments = true) :
    getUnitPurchaseCost powFloor p ctx opts
      = unitPurchaseCostStages powFloor p ctx opts := by
  obtain ⟨z, hz⟩ := getPurchaseCostFromProduction_isInt powFloor p ctx
    opts.hurryModifier opts.constants
  rcases eq_or_ne opts.hurryCostModifier 0 with h0 | h0 <;>
    rcases eq_or_ne opts.playerUnitPurchaseMod 0 with h1 | h1 <;>
    rcases eq_or_ne opts.techProgress 0 with h2 | h2 <;>
    first
      | (simp [getUnitPurchaseCost, unitPurchaseCostStages, hmod, hz, hvp, h0, h1,
           h2, floorIntMulHundredDivHundred, supZeroHundred]
         done)
      | (have h2p : 0 < opts.techProgress := lt_of_le_of_ne hprog0 (Ne.symm h2)
         simp [getUnitPurchaseCost, unitPurchaseCostStages, hmod, hz, hvp, h0, h1,
           h2p, floorIntMulHundredDivHundred, supZeroHundred])

/-- Witness for claim C2 at concrete inputs, matching the concrete scenario
of the specification: toggle on, progress 50, other modifiers zero. -/
theorem unit_purchase_stage_order_witness :
    getUnitPurchaseCost (fun x => ⌊x⌋) 200 createDefaultGameContext
        { defaultUnitPurchaseCostOptions with techProgress := 50 }
      = unitPurchaseCostStages (fun x => ⌊x⌋) 200 createDefaultGameContext
          { defaultUnitPurchaseCostOptions with techProgress := 50 } :=
  unit_purchase_stage_order (fun x => ⌊x⌋) 200 createDefaultGameContext
    { defaultUnitPurchaseCostOptions with techProgress := 50 }
    (by norm_num) (by norm_num) (by norm_num)
    (by norm_num [defaultUnitPurchaseCostOptions]) rfl

/-! ## Claim C3: non-sentinel results are divisor multiples, at least the divisor -/

/-- Shared helper: the final two stages of every purchase function, the
divisor floor followed by the minimum clamp, produce an integer multiple of
the divisor that is at least the divisor. -/
lemma purchaseTailSpec (c d : ℚ) (n : ℤ) (hd : d = (n : ℚ)) (hn : 0 < n) :
    (∃ k : ℤ, max d (floorToDivisor c d) = (k : ℚ) * d) ∧
      d ≤ max d (floorToDivisor c d) := by
  refine ⟨?_, le_max_left _ _⟩
  rcases le_total (floorToDivisor c d) d with h | h
  · exact ⟨1, by rw [max_eq_left h]; ring⟩
  · refine ⟨⌊c / d⌋, ?_⟩
    rw [max_eq_right h]
    rfl

/-- Claim C3: for every input with positive integer visible divisors, every
non-sentinel result of the unit, building, and project purchase functions is
an exact integer multiple of the visible divisor of its constants bundle and
is at least that divisor. -/
theorem results_visible_divisor_multiple (powFloor : ℚ → ℤ) (pu pb pp hm : ℚ)
    (ctx : GameContext) (uopts : UnitPurchaseCostOptions)
    (bopts : BuildingPurchaseCostOptions) (C : GoldPurchaseConstants)
    (nu nb np : ℤ)
    (hdu : uopts.constants.GOLD_PURCHASE_VISIBLE_DIVISOR = (nu : ℚ)) (hnu : 0 < nu)
    (hdb : bopts.constants.GOLD_PURCHASE_VISIBLE_DIVISOR = (nb : ℚ)) (hnb : 0 < nb)
    (hdp : C.GOLD_PURCHASE_VISIBLE_DIVISOR = (np : ℚ)) (hnp : 0 < np) :
    (getUnitPurchaseCost powFloor pu ctx uopts ≠ -1 →
      (∃ k : ℤ, getUnitPurchaseCost powFloor pu ctx uopts
          = (k : ℚ) * uopts.constants.GOLD_PURCHASE_VISIBLE_DIVISOR) ∧
        uopts.constants.GOLD_PURCHASE_VISIBLE_DIVISOR
          ≤ getUnitPurchaseCost powFloor pu ctx uopts) ∧
    (getBuildingPurchaseCost powFloor pb ctx bopts ≠ -1 →
      (∃ k : ℤ, getBuildingPurchaseCost powFloor pb ctx bopts
          = (k : ℚ) * bopts.constants.GOLD_PURCHASE_VISIBLE_DIVISOR) ∧
        bopts.constants.GOLD_PURCHASE_VISIBLE_DIVISOR
          ≤ getBuildingPurchaseCost powFloor pb ctx bopts) ∧
    (getProjectPurchaseCost powFloor pp ctx hm C ≠ -1 →
      (∃ k : ℤ, getProjectPurchaseCost powFloor pp ctx hm C
          = (k : ℚ) * C.GOLD_PURCHASE_VISIBLE_DIVISOR) ∧
        C.GOLD_PURCHASE_VISIBLE_DIVISOR ≤ getProjectPurchaseCost powFloor pp ctx hm C) := by
  refine ⟨?_, ?_, ?_⟩
  · rcases eq_or_ne uopts.hurryCostModifier (-1) with h | h
    · simp [getUnitPurchaseCost, h]
    · intro _
      simp only [getUnitPurchaseCost, if_neg h]
      exact purchaseTailSpec _ _ nu hdu hnu
  · rcases eq_or_ne bopts.buildingHurryCostModifier (-1) with h | h
    · simp [getBuildingPurchaseCost, h]
    · intro _
      simp only [getBuildingPurchaseCost, if_neg h]
      exact purchaseTailSpec _ _ nb hdb hnb
  · intro _
    simp only [getProjectPurchaseCost]
    exact purchaseTailSpec _ _ np hdp hnp

/-- Witness for claim C3 at concrete inputs. -/
theorem results_visible_divisor_multiple_witness :
    (getUnitPurchaseCost (fun x => ⌊x⌋) 100 createDefaultGameContext
        defaultUnitPurchaseCostOptions ≠ -1 →
      (∃ k : ℤ, getUnitPurchaseCost (fun x => ⌊x⌋) 100 createDefaultGameContext
          defaultUnitPurchaseCostOptions
          = (k : ℚ) * defaultUnitPurchaseCostOptions.constants.GOLD_PURCHASE_VISIBLE_DIVISOR) ∧
        defaultUnitPurchaseCostOptions.constants.GOLD_PURCHASE_VISIBLE_DIVISOR
          ≤ getUnitPurchaseCost (fun x => ⌊x⌋) 100 createDefaultGameContext
              defaultUnitPurchaseCostOptions) ∧
    (getBuildingPurchaseCost (fun x => ⌊x⌋) 100 createDefaultGameContext
        defaultBuildingPurchaseCostOptions ≠ -1 →
      (∃ k : ℤ, getBuildingPurchaseCost (fun x => ⌊x⌋) 100 createDefaultGameContext
          defaultBuildingPurchaseCostOptions
          = (k : ℚ) * defaultBuildingPurchaseCostOptions.constants.GOLD_PURCHASE_VISIBLE_DIVISOR) ∧
        defaultBuildingPurchaseCostOptions.constants.GOLD_PURCHASE_VISIBLE_DIVISOR
          ≤ getBuildingPurchaseCost (fun x => ⌊x⌋) 100 createDefaultGameContext
              defaultBuildingPurchaseCostOptions) ∧
    (getProjectPurchaseCost (fun x => ⌊x⌋) 100 createDefaultGameContext 0
        GOLD_PURCHASE_CONSTANTS_VP ≠ -1 →
      (∃ k : ℤ, getProjectPurchaseCost (fun x => ⌊x⌋) 100 createDefaultGameContext 0
          GOLD_PURCHASE_CONSTANTS_VP
          = (k : ℚ) * GOLD_PURCHASE_CONSTANTS_VP.GOLD_PURCHASE_VISIBLE_DIVISOR) ∧
        GOLD_PURCHASE_CONSTANTS_VP.GOLD_PURCHASE_VISIBLE_DIVISOR
          ≤ getProjectPurchaseCost (fun x => ⌊x⌋) 100 createDefaultGameContext 0
              GOLD_PURCHASE_CONSTANTS_VP) :=
  results_visible_divisor_multiple (fun x => ⌊x⌋) 100 100 100 0
    createDefaultGameContext defaultUnitPurchaseCostOptions
    defaultBuildingPurchaseCostOptions GOLD_PURCHASE_CONSTANTS_VP 10 10 10
    (by norm_num [defaultUnitPurchaseCostOptions, GOLD_PURCHASE_CONSTANTS_VP])
    (by norm_num)
    (by norm_num [defaultBuildingPurchaseCostOptions, GOLD_PURCHASE_CONSTANTS_VP])
    (by norm_num)
    (by norm_num [GOLD_PURCHASE_CONSTANTS_VP])
    (by norm_num)

/-! ## Claim C9: additivity of the total hurry modifier -/

/-- The contribution of one source-index entry under a scope filter. -/
def entryScopeTotal (scope : HurryScopeFilter) (mods : List HurryModifierSource) : ℤ :=
  mods.foldl (fun t m => if scopeMatches scope m.scope then t + m.modifier else t) 0

/-- Generic accumulator-shift property of integer folds whose step adds an
amount independent of the accumulator. -/
lemma foldl_addLike {α : Type} (f : ℤ → α → ℤ) (h : ∀ t a, f t a = t + f 0 a)
    (l : List α) : ∀ t : ℤ, l.foldl f t = t + l.foldl f 0 := by
  induction l with
  | nil => intro t; simp
  | cons a l ih =>
    intro t
    rw [List.foldl_cons, List.foldl_cons, ih (f t a), ih (f 0 a), h t a]
    ring

/-- The inner fold of calculateTotalHurryModifier shifts over its accumulator. -/
lemma innerFold_addLike (scope : HurryScopeFilter) :
    ∀ (t : ℤ) (m : HurryModifierSource),
      (if scopeMatches scope m.scope then t + m.modifier else t)
        = t + (if scopeMatches scope m.scope then 0 + m.modifier else 0) := by
  intro t m
  split <;> ring

/-- calculateTotalHurryModifier as a sum of per-entry contributions gated by
membership of the entry identifier in the enabled set. -/
lemma calculateTotalHurryModifier_eq_sum (enabled : Finset String)
    (allSources : List (String × List HurryModifierSource))
    (scope : HurryScopeFilter) :
    calculateTotalHurryModifier enabled allSources scope
      = (allSources.map
          (fun e => if e.1 ∈ enabled then entryScopeTotal scope e.2 else 0)).sum := by
  have hinner : ∀ (t : ℤ) (mods : List HurryModifierSource),
      mods.foldl (fun t m => if scopeMatches scope m.scope then t + m.modifier else t) t
        = t + entryScopeTotal scope mods := by
    intro t mods
    exact foldl_addLike _ (innerFold_addLike scope) mods t
  have houter : ∀ (t : ℤ) (e : String × List HurryModifierSource),
      (if e.1 ∈ enabled then
          e.2.foldl (fun t m => if scopeMatches scope m.scope then t + m.modifier else t) t
        else t)
        = t + (if e.1 ∈ enabled then
            e.2.foldl (fun t m => if scopeMatches scope m.scope then t + m.modifier else t) 0
          else 0) := by
    intro t e
    split
    · rw [hinner t, hinner 0]; ring
    · ring
  unfold calculateTotalHurryModifier
  induction allSources with
  | nil => simp
  | cons e S ih =>
    rw [List.foldl_cons, foldl_addLike _ houter S, ih, List.map_cons, List.sum_cons,
      houter 0 e, hinner 0]
    ring

/-- The concrete source index used by the claim C9 counterexample: one
building providing a single minus-five percent discount. -/
def exampleHurryIndex : List (String × List HurryModifierSource) :=
  [("BUILDING_X",
    [{ type := "BUILDING_X", name := "X", modifier := -5,
       scope := HurryScope.empireScope, description := "d" }])]

/-- Claim C9 counterexample: for the overlapping enabled sets A = B = the
singleton of the example building, the total over the union (which equals A)
is -5, while the sum of the two totals is -10; additivity fails without a
disjointness assumption. -/
theorem total_hurry_modifier_union_cex :
    calculateTotalHurryModifier
        (({"BUILDING_X"} : Finset String) ∪ {"BUILDING_X"}) exampleHurryIndex .all
      ≠ calculateTotalHurryModifier {"BUILDING_X"} exampleHurryIndex .all
        + calculateTotalHurryModifier {"BUILDING_X"} exampleHurryIndex .all := by
  have h : calculateTotalHurryModifier ({"BUILDING_X"} : Finset String)
      exampleHurryIndex .all = -5 := by
    simp [calculateTotalHurryModifier, exampleHurryIndex, scopeMatches]
  rw [Finset.union_self, h]
  norm_num

/-- Claim C9 (amended): for every source index and every two disjoint enabled
sets, the total over the all scope is additive across the union. -/
theorem total_hurry_modifier_additive_of_disjoint (A B : Finset String)
    (allSources : List (String × List HurryModifierSource))
    (hAB : Disjoint A B) :
    calculateTotalHurryModifier (A ∪ B) allSources .all
      = calculateTotalHurryModifier A allSources .all
        + calculateTotalHurryModifier B allSources .all := by
  rw [calculateTotalHurryModifier_eq_sum, calculateTotalHurryModifier_eq_sum,
    calculateTotalHurryModifier_eq_sum]
  induction allSources with
  | nil => simp
  | cons e S ih =>
    simp only [List.map_cons, List.sum_cons]
    rw [ih]
    by_cases hA : e.1 ∈ A <;> by_cases hB : e.1 ∈ B
    · exact absurd hB (Finset.disjoint_left.mp hAB hA)
    all_goals simp [Finset.mem_union, hA, hB] <;> ring

/-- Witness for the amended claim C9: two disjoint singletons over the
example index. -/
theorem total_hurry_modifier_additive_witness :
    calculateTotalHurryModifier
        (({"BUILDING_X"} : Finset String) ∪ {"BUILDING_Y"}) exampleHurryIndex .all
      = calculateTotalHurryModifier {"BUILDING_X"} exampleHurryIndex .all
        + calculateTotalHurryModifier {"BUILDING_Y"} exampleHurryIndex .all :=
  total_hurry_modifier_additive_of_disjoint {"BUILDING_X"} {"BUILDING_Y"}
    exampleHurryIndex (by simp)

/-! ## Claim C8: the gold to production ratio

The claim depends on the actual Math.pow behaviour, so the pow model is tied
to the real power function at the exponent of the constants bundle.
-/

/-- The pow model is faithful to the real power function at exponent e:
on nonnegative inputs it returns the floor of the real power. -/
def PowFloorFaithful (powFloor : ℚ → ℤ) (e : ℚ) : Prop :=
  ∀ x : ℚ, 0 ≤ x → powFloor x = ⌊(x : ℝ) ^ (e : ℝ)⌋

/-- Floor of the real square root of a rational, computed through the natural
square root of the floor. -/
def ratSqrtFloor (x : ℚ) : ℤ :=
  (Nat.sqrt (Int.toNat ⌊x⌋) : ℤ)

/-- ratSqrtFloor is the faithful pow model for exponent one half. -/
lemma ratSqrtFloor_faithful : PowFloorFaithful ratSqrtFloor (1/2) := by
  intro x hx
  have hcast : (((1/2 : ℚ)) : ℝ) = (1/2 : ℝ) := by norm_num
  rw [hcast, ← Real.sqrt_eq_rpow]
  unfold ratSqrtFloor
  have hfl : (0 : ℤ) ≤ ⌊x⌋ := Int.floor_nonneg.mpr hx
  set n : ℕ := Int.toNat ⌊x⌋ with hn
  set s : ℕ := Nat.sqrt n with hs
  have hnx : ((n : ℚ)) ≤ x := by
    have h1 : ((n : ℤ) : ℚ) ≤ x := by
      rw [hn, Int.toNat_of_nonneg hfl]
      exact Int.floor_le x
    exact_mod_cast h1
  have hxn : x < (n : ℚ) + 1 := by
    have h1 : x < ((⌊x⌋ : ℚ)) + 1 := Int.lt_floor_add_one x
    have h2 : ((⌊x⌋ : ℤ) : ℚ) = ((n : ℤ) : ℚ) := by
      rw [hn, Int.toNat_of_nonneg hfl]
    rw [h2] at h1
    exact_mod_cast h1
  have hxr : (0 : ℝ) ≤ ((x : ℚ) : ℝ) := by exact_mod_cast hx
  symm
  rw [Int.floor_eq_iff]
  constructor
  · have h1 : ((s : ℝ)) ^ 2 ≤ ((n : ℝ)) := by exact_mod_cast Nat.sqrt_le' n
    have h2 : ((n : ℝ)) ≤ ((x : ℚ) : ℝ) := by exact_mod_cast hnx
    have h3 := (Real.le_sqrt (by positivity) hxr).mpr (le_trans h1 h2)
    exact_mod_cast h3
  · have h1 : ((x : ℚ) : ℝ) < ((n : ℝ)) + 1 := by exact_mod_cast hxn
    have h2 : ((n : ℝ)) + 1 ≤ (((s : ℝ)) + 1) ^ 2 := by
      have h3 : ((n + 1 : ℕ) : ℝ) ≤ ((s + 1 : ℕ) : ℝ) ^ 2 := by
        exact_mod_cast Nat.succ_le_of_lt (Nat.lt_succ_sqrt' n)
      push_cast at h3
      linarith
    have h4 := (Real.sqrt_lt' (by positivity)).mpr (lt_of_lt_of_le h1 h2)
    exact_mod_cast h4

/-- Constants bundle with exponent one half, a legitimate instance of the
claim C8 hypotheses (exponent strictly between 0 and 1). -/
def halfExponentConstants : GoldPurchaseConstants :=
  { GOLD_PURCHASE_GOLD_PER_PRODUCTION := 30
    HURRY_GOLD_PRODUCTION_EXPONENT := 1/2
    GOLD_PURCHASE_VISIBLE_DIVISOR := 10 }

/-- Claim C8 counterexample: with the faithful square-root pow model,
exponent one half, gold-per-production 30, and the default context, the
productions 33/10 < 10/3 give ratios 30/11 < 3: the ratio increases across
a floor boundary, so strict decrease of the implemented ratio fails. -/
theorem gold_ratio_strict_decrease_cex :
    PowFloorFaithful ratSqrtFloor
        halfExponentConstants.HURRY_GOLD_PRODUCTION_EXPONENT
    ∧ 0 < halfExponentConstants.HURRY_GOLD_PRODUCTION_EXPONENT
    ∧ halfExponentConstants.HURRY_GOLD_PRODUCTION_EXPONENT < 1
    ∧ 0 < halfExponentConstants.GOLD_PURCHASE_GOLD_PER_PRODUCTION
    ∧ (0 : ℚ) < 33/10 ∧ (33/10 : ℚ) < 10/3
    ∧ getGoldToProductionRatio ratSqrtFloor (33/10) createDefaultGameContext
        halfExponentConstants = 30/11
    ∧ getGoldToProductionRatio ratSqrtFloor (10/3) createDefaultGameContext
        halfExponentConstants = 3
    ∧ ¬ (getGoldToProductionRatio ratSqrtFloor (10/3) createDefaultGameContext
          halfExponentConstants
        < getGoldToProductionRatio ratSqrtFloor (33/10) createDefaultGameContext
            halfExponentConstants) := by
  have h1 : getGoldToProductionRatio ratSqrtFloor (33/10) createDefaultGameContext
      halfExponentConstants = 30/11 := by
    norm_num [getGoldToProductionRatio, getPurchaseCostFromProduction, ratSqrtFloor,
      halfExponentConstants, createDefaultGameContext, GAMESPEED_STANDARD]
    rw [show Int.toNat 99 = 99 from rfl]
    norm_num
  have h2 : getGoldToProductionRatio ratSqrtFloor (10/3) createDefaultGameContext
      halfExponentConstants = 3 := by
    norm_num [getGoldToProductionRatio, getPurchaseCostFromProduction, ratSqrtFloor,
      halfExponentConstants, createDefaultGameContext, GAMESPEED_STANDARD]
    rw [show Int.toNat 100 = 100 from rfl]
    norm_num
  refine ⟨?_, by norm_num [halfExponentConstants], by norm_num [halfExponentConstants],
    by norm_num [halfExponentConstants], by norm_num, by norm_num, h1, h2, ?_⟩
  · have h := ratSqrtFloor_faithful
    simpa [halfExponentConstants] using h
  · rw [h1, h2]
    norm_num

/-- Claim C8 (amended): under the claim hypotheses the base cost is monotone
non-decreasing in production, and the ideal, truncation-free ratio (the real
power expression divided by production) is strictly decreasing; the
implemented, floored ratio itself is not strictly decreasing, as the
counterexample shows. -/
theorem gold_ratio_amended (powFloor : ℚ → ℤ) (ctx : GameContext)
    (C : GoldPurchaseConstants)
    (hpf : PowFloorFaithful powFloor C.HURRY_GOLD_PRODUCTION_EXPONENT)
    (he0 : 0 < C.HURRY_GOLD_PRODUCTION_EXPONENT)
    (he1 : C.HURRY_GOLD_PRODUCTION_EXPONENT < 1)
    (hg : 0 < C.GOLD_PURCHASE_GOLD_PER_PRODUCTION)
    (hs : 0 ≤ ctx.gameSpeed.hurryPercent)
    (p1 p2 : ℚ) (hp1 : 0 < p1) (h12 : p1 < p2) :
    getPurchaseCostFromProduction powFloor p1 ctx 0 C
      ≤ getPurchaseCostFromProduction powFloor p2 ctx 0 C
    ∧ (0 < ctx.gameSpeed.hurryPercent →
        ((p2 * C.GOLD_PURCHASE_GOLD_PER_PRODUCTION : ℚ) : ℝ)
            ^ ((C.HURRY_GOLD_PRODUCTION_EXPONENT : ℚ) : ℝ)
            * ((ctx.gameSpeed.hurryPercent : ℚ) : ℝ) / 100 / ((p2 : ℚ) : ℝ)
        < ((p1 * C.GOLD_PURCHASE_GOLD_PER_PRODUCTION : ℚ) : ℝ)
            ^ ((C.HURRY_GOLD_PRODUCTION_EXPONENT : ℚ) : ℝ)
            * ((ctx.gameSpeed.hurryPercent : ℚ) : ℝ) / 100 / ((p1 : ℚ) : ℝ)) := by
  have hp2 : 0 < p2 := lt_trans hp1 h12
  constructor
  · have hb1 : (0 : ℚ) ≤ p1 * C.GOLD_PURCHASE_GOLD_PER_PRODUCTION :=
      (mul_pos hp1 hg).le
    have hb2 : (0 : ℚ) ≤ p2 * C.GOLD_PURCHASE_GOLD_PER_PRODUCTION :=
      (mul_pos hp2 hg).le
    have hpow : powFloor (p1 * C.GOLD_PURCHASE_GOLD_PER_PRODUCTION)
        ≤ powFloor (p2 * C.GOLD_PURCHASE_GOLD_PER_PRODUCTION) := by
      rw [hpf _ hb1, hpf _ hb2]
      refine Int.floor_mono (Real.rpow_le_rpow ?_ ?_ ?_)
      · exact_mod_cast hb1
      · exact_mod_cast mul_le_mul_of_nonneg_right h12.le hg.le
      · exact_mod_cast he0.le
    have hq : ((powFloor (p1 * C.GOLD_PURCHASE_GOLD_PER_PRODUCTION) : ℚ))
          * ctx.gameSpeed.hurryPercent / 100
        ≤ ((powFloor (p2 * C.GOLD_PURCHASE_GOLD_PER_PRODUCTION) : ℚ))
          * ctx.gameSpeed.hurryPercent / 100 := by
      have hm := mul_le_mul_of_nonneg_right
        (show ((powFloor (p1 * C.GOLD_PURCHASE_GOLD_PER_PRODUCTION) : ℚ))
            ≤ ((powFloor (p2 * C.GOLD_PURCHASE_GOLD_PER_PRODUCTION) : ℚ)) by
          exact_mod_cast hpow) hs
      linarith
    simp only [getPurchaseCostFromProduction, hp1.not_le, hp2.not_le, if_false,
      ne_eq, not_true_eq_false]
    exact max_le_max le_rfl (by exact_mod_cast Int.floor_mono hq)
  · intro hsp
    set E : ℝ := ((C.HURRY_GOLD_PRODUCTION_EXPONENT : ℚ) : ℝ) with hE
    set G : ℝ := ((C.GOLD_PURCHASE_GOLD_PER_PRODUCTION : ℚ) : ℝ) with hG
    set HP : ℝ := ((ctx.gameSpeed.hurryPercent : ℚ) : ℝ) with hHP
    have hx1 : (0 : ℝ) < ((p1 : ℚ) : ℝ) := by exact_mod_cast hp1
    have hx2 : (0 : ℝ) < ((p2 : ℚ) : ℝ) := by exact_mod_cast hp2
    have hx12 : ((p1 : ℚ) : ℝ) < ((p2 : ℚ) : ℝ) := by exact_mod_cast h12
    have hGpos : (0 : ℝ) < G := by rw [hG]; exact_mod_cast hg
    have hE0 : (0 : ℝ) < E := by rw [hE]; exact_mod_cast he0
    have hE1 : E < 1 := by rw [hE]; exact_mod_cast he1
    have hHPpos : (0 : ℝ) < HP := by rw [hHP]; exact_mod_cast hsp
    have hkey : ((p2 : ℚ) : ℝ) ^ (E - 1) < ((p1 : ℚ) : ℝ) ^ (E - 1) := by
      rw [show E - 1 = -(1 - E) by ring, Real.rpow_neg hx1.le, Real.rpow_neg hx2.le]
      exact inv_lt_inv_of_lt (Real.rpow_pos_of_pos hx1 _)
        (Real.rpow_lt_rpow hx1.le hx12 (by linarith))
    have hform : ∀ x : ℝ, 0 < x →
        ((x * G) ^ E * HP / 100) / x = (G ^ E * x ^ (E - 1)) * (HP / 100) := by
      intro x hx
      rw [Real.mul_rpow hx.le hGpos.le, Real.rpow_sub hx, Real.rpow_one]
      field_simp
      ring
    have hc1 : ((p1 * C.GOLD_PURCHASE_GOLD_PER_PRODUCTION : ℚ) : ℝ)
        = ((p1 : ℚ) : ℝ) * G := by rw [hG]; push_cast; ring
    have hc2 : ((p2 * C.GOLD_PURCHASE_GOLD_PER_PRODUCTION : ℚ) : ℝ)
        = ((p2 : ℚ) : ℝ) * G := by rw [hG]; push_cast; ring
    rw [hc1, hc2, hform _ hx1, hform _ hx2]
    have hmul := mul_lt_mul_of_pos_left hkey (Real.rpow_pos_of_pos hGpos E)
    exact mul_lt_mul_of_pos_right hmul (by positivity)

/-- Witness for the amended claim C8 at the concrete counterexample inputs:
cost monotone from production 33/10 to 10/3, and the ideal ratio strictly
decreasing between them. -/
theorem gold_ratio_amended_witness :
    getPurchaseCostFromProduction ratSqrtFloor (33/10) createDefaultGameContext 0
        halfExponentConstants
      ≤ getPurchaseCostFromProduction ratSqrtFloor (10/3) createDefaultGameContext 0
          halfExponentConstants
    ∧ (0 < createDefaultGameContext.gameSpeed.hurryPercent →
        ((((10:ℚ)/3) * halfExponentConstants.GOLD_PURCHASE_GOLD_PER_PRODUCTION : ℚ) : ℝ)
            ^ ((halfExponentConstants.HURRY_GOLD_PRODUCTION_EXPONENT : ℚ) : ℝ)
            * ((createDefaultGameContext.gameSpeed.hurryPercent : ℚ) : ℝ) / 100
            / (((10:ℚ)/3 : ℚ) : ℝ)
        < ((((33:ℚ)/10) * halfExponentConstants.GOLD_PURCHASE_GOLD_PER_PRODUCTION : ℚ) : ℝ)
            ^ ((halfExponentConstants.HURRY_GOLD_PRODUCTION_EXPONENT : ℚ) : ℝ)
            * ((createDefaultGameContext.gameSpeed.hurryPercent : ℚ) : ℝ) / 100
            / (((33:ℚ)/10 : ℚ) : ℝ)) :=
  gold_ratio_amended ratSqrtFloor createDefaultGameContext halfExponentConstants
    (by simpa [halfExponentConstants] using ratSqrtFloor_faithful)
    (by norm_num [halfExponentConstants]) (by norm_num [halfExponentConstants])
    (by norm_num [halfExponentConstants])
    (by norm_num [createDefaultGameContext, GAMESPEED_STANDARD])
    (33/10) (10/3) (by norm_num) (by norm_num)

/-! ## Claim C10: the memoized tech progress cache -/

/-- Claim C10: after one successful call the cached data is returned by every
subsequent call, ignoring the technologies argument entirely, until
clearTechProgressCache resets the cache, after which the next call rebuilds
from its actual argument.  The module-level cache variable is threaded
explicitly. -/
theorem buildTechProgressData_cache_semantics (ts1 ts2 ts3 : List Technology) :
    (buildTechProgressData (buildTechProgressData none ts1).2 ts2).1
      = (buildTechProgressData none ts1).1 ∧
    (buildTechProgressData none ts1).1 = buildTechProgressDataPure ts1 ∧
    (buildTechProgressData
        (clearTechProgressCache
          ((buildTechProgressData (buildTechProgressData none ts1).2 ts2).2))
        ts3).1 = buildTechProgressDataPure ts3 :=
  ⟨rfl, rfl, rfl⟩

end VoxPopuli
